import Mathlib

/-!
# MPU6050 complementary filter (`IIRFilter_1st_order/MPU6050.h`)

A shallow embedding of the sensor reader, the gyroscope integrator, the
complementary filter and the calibration routine of `MPU6050.h`.

Modelling conventions.

* `float` (and `double`, which is the same type on the AVR target) is modelled
  by the exact rationals `ℚ`: every arithmetic operation of the source is the
  corresponding exact operation, rounding, infinities and NaN are not modelled.
* Where rounding decides a property (the order bound of the blend, the closed
  form of the integrator), the two functions are stated a second time in
  `Binary32`, with every `float` operation rounded to the nearest binary32
  value, ties to even.
* `int` is the 16-bit two's-complement `int` of the AVR target, carried as its
  bit pattern (a natural number below `2 ^ 16`) and read as a signed number by
  `toSigned` at the point where the source converts it to `float`.
* `atan`, `sqrt` and `PI` come from the Arduino core, not from the repository;
  they are parameters (`MathLib`).
* `Wire` and `millis()` come from the Arduino core as well: the bus is the
  explicit state `TwoWire`, the clock reading is an argument.
-/

namespace IIRFilter

/-! ## Arithmetic of the target -/

/-- Modelled from the spec: the width of the target's `int` (the spec speaks of
"raw 16-bit signed register pairs"; the type declaration itself lives in the
compiler, not in the repository). -/
def INT_BITS : Nat := 16

/-- Truncation of a bit pattern to the width of `int`. -/
def wrapInt (n : Nat) : Nat := n % 2 ^ INT_BITS

/-- The `<<` operator on `int` bit patterns. -/
def shl (a k : Nat) : Nat := wrapInt (a <<< k)

/-- The `|` operator on `int` bit patterns. -/
def bor (a b : Nat) : Nat := wrapInt (a ||| b)

/-- The signed value of an `int` bit pattern (two's complement). -/
def toSigned (n : Nat) : Int :=
  if wrapInt n < 2 ^ (INT_BITS - 1) then (wrapInt n : Int) else (wrapInt n : Int) - 2 ^ INT_BITS

/-- Conversion `int → float` as it happens in `int / 16384.0`. -/
def toFloat (n : Nat) : ℚ := (toSigned n : ℚ)

/-- The math functions and the constant the source takes from the Arduino core. -/
structure MathLib where
  /-- The function `atan`. -/
  atan : ℚ → ℚ
  /-- The function `sqrt`. -/
  sqrt : ℚ → ℚ
  /-- The constant `PI`. -/
  PI : ℚ

/-- The call `pow(x, 2)`. -/
def pow (x : ℚ) (n : Nat) : ℚ := x ^ n

/-! ## The two-wire bus -/

/-- The `Wire` object as the reader sees it. `device t r n` is the list of bytes
the sensor hands back on the `t`-th read transaction when `n` bytes are
requested from register `r`; `rx` is the receive buffer that `read()` drains. -/
structure TwoWire where
  /-- answer of the device: transaction number, register, requested count -/
  device : Nat → Nat → Nat → List Nat
  /-- number of read transactions so far -/
  txn : Nat
  /-- register pointer set by the last `write` -/
  reg : Nat
  /-- receive buffer -/
  rx : List Nat

namespace TwoWire

/-- The call `Wire.beginTransmission(address)`. -/
def beginTransmission (w : TwoWire) (_address : Nat) : TwoWire := w

/-- The call `Wire.write(b)`: the single byte written is the register address. -/
def write (w : TwoWire) (b : Nat) : TwoWire := { w with reg := b }

/-- The call `Wire.endTransmission(stop)`. -/
def endTransmission (w : TwoWire) (_stop : Bool) : TwoWire := w

/-- The call `Wire.requestFrom(address, n, stop)`: the buffer is replaced by what the
device returned, at most `n` bytes. The return value is ignored by the source. -/
def requestFrom (w : TwoWire) (_address : Nat) (n : Nat) (_stop : Bool) : TwoWire :=
  { w with rx := ((w.device w.txn w.reg n).take n).map (fun b => b % 256), txn := w.txn + 1 }

/-- The call `Wire.read()`: the next byte of the buffer, or `-1` (all bits set) when the
buffer is empty. -/
def read (w : TwoWire) : Nat × TwoWire :=
  match w.rx with
  | [] => (2 ^ INT_BITS - 1, w)
  | b :: rest => (b, { w with rx := rest })

/-- The expression `Wire.read() << 8 | Wire.read()`, left operand first. -/
def readWord (w : TwoWire) : Nat × TwoWire :=
  let hi := w.read
  let lo := hi.2.read
  (bor (shl hi.1 8) lo.1, lo.2)

end TwoWire

/-! ## The class `MPU6050` -/

/-- The data members of `class MPU6050`. -/
structure MPU6050 where
  roll : ℚ
  pitch : ℚ
  yaw : ℚ
  MPU_ADDRESS : Nat
  AccX : ℚ
  AccY : ℚ
  AccZ : ℚ
  GyroX : ℚ
  GyroY : ℚ
  GyroZ : ℚ
  accAngleX : ℚ
  accAngleY : ℚ
  gyroAngleX : ℚ
  gyroAngleY : ℚ
  gyroAngleZ : ℚ
  AccErrorX : ℚ
  AccErrorY : ℚ
  GyroErrorX : ℚ
  GyroErrorY : ℚ
  GyroErrorZ : ℚ
  elapsedTime : ℚ
  currentTime : ℚ
  previousTime : ℚ

/-- The member `const float GAIN = 0.96;`. -/
def GAIN : ℚ := 0.96

namespace MPU6050

/-- The method `void MPU6050::readSensor()`. `millis` is the value `millis()` returns. -/
def readSensor (m : MathLib) (millis : Nat) (s : MPU6050) (w : TwoWire) : MPU6050 × TwoWire :=
  let w := w.beginTransmission s.MPU_ADDRESS
  let w := w.write 0x3B
  let w := w.endTransmission false
  let w := w.requestFrom s.MPU_ADDRESS 6 true
  let r := w.readWord
  let AccX := toFloat r.1 / 16384.0
  let r := r.2.readWord
  let AccY := toFloat r.1 / 16384.0
  let r := r.2.readWord
  let AccZ := toFloat r.1 / 16384.0
  let w := r.2
  let accAngleX := (m.atan (AccY / m.sqrt (pow AccX 2 + pow AccZ 2)) * 180 / m.PI) - 0.58
  let accAngleY := (m.atan (-1 * AccX / m.sqrt (pow AccY 2 + pow AccZ 2)) * 180 / m.PI) + 1.58
  let previousTime := s.currentTime
  let currentTime := (millis : ℚ)
  let elapsedTime := (currentTime - previousTime) / 1000
  let w := w.beginTransmission s.MPU_ADDRESS
  let w := w.write 0x43
  let w := w.endTransmission false
  let w := w.requestFrom s.MPU_ADDRESS 6 true
  let r := w.readWord
  let GyroX := toFloat r.1 / 131.0
  let r := r.2.readWord
  let GyroY := toFloat r.1 / 131.0
  let r := r.2.readWord
  let GyroZ := toFloat r.1 / 131.0
  let w := r.2
  let GyroX := GyroX + 1.58
  let GyroY := GyroY - 0.47
  let GyroZ := GyroZ + 0.60
  ({ s with
      AccX := AccX, AccY := AccY, AccZ := AccZ,
      accAngleX := accAngleX, accAngleY := accAngleY,
      previousTime := previousTime, currentTime := currentTime, elapsedTime := elapsedTime,
      GyroX := GyroX, GyroY := GyroY, GyroZ := GyroZ }, w)

/-- The method `void MPU6050::calculateAngles()`. -/
def calculateAngles (s : MPU6050) : MPU6050 :=
  let gyroAngleX := s.gyroAngleX + s.GyroX * s.elapsedTime
  let gyroAngleY := s.gyroAngleY + s.GyroY * s.elapsedTime
  let yaw := s.yaw + s.GyroZ * s.elapsedTime
  { s with gyroAngleX := gyroAngleX, gyroAngleY := gyroAngleY, yaw := yaw }

/-- The method `void MPU6050::complementaryFilterFIR()`. -/
def complementaryFilterFIR (s : MPU6050) : MPU6050 :=
  let roll := GAIN * s.gyroAngleX + (1 - GAIN) * s.accAngleX
  let pitch := GAIN * s.gyroAngleY + (1 - GAIN) * s.accAngleY
  { s with roll := roll, pitch := pitch }

end MPU6050

/-- Modelled from the spec: the sketch that drives the class is not under
`src/`; one tick is the spec's sequence "Sensor Reader, then Orientation
Estimator": `readSensor`, `calculateAngles`, `complementaryFilterFIR`. -/
def tick (m : MathLib) (millis : Nat) (s : MPU6050) (w : TwoWire) : MPU6050 × TwoWire :=
  let r := MPU6050.readSensor m millis s w
  (MPU6050.complementaryFilterFIR (MPU6050.calculateAngles r.1), r.2)

/-- The global variables `calculate_IMU_error` works on. The header does not
declare them; the counter `c` is an `int`, the others are `float`. -/
structure Globals where
  MPU : Nat
  c : Nat
  AccX : ℚ
  AccY : ℚ
  AccZ : ℚ
  GyroX : ℚ
  GyroY : ℚ
  GyroZ : ℚ
  AccErrorX : ℚ
  AccErrorY : ℚ
  GyroErrorX : ℚ
  GyroErrorY : ℚ
  GyroErrorZ : ℚ

/-- Body of the first `while (c < 200)` loop of `calculate_IMU_error`. -/
def accStep (m : MathLib) (g : Globals) (w : TwoWire) : Globals × TwoWire :=
  let w := w.beginTransmission g.MPU
  let w := w.write 0x3B
  let w := w.endTransmission false
  let w := w.requestFrom g.MPU 6 true
  let r := w.readWord
  let AccX := toFloat r.1 / 16384.0
  let r := r.2.readWord
  let AccY := toFloat r.1 / 16384.0
  let r := r.2.readWord
  let AccZ := toFloat r.1 / 16384.0
  let w := r.2
  let AccErrorX := g.AccErrorX + (m.atan (AccY / m.sqrt (pow AccX 2 + pow AccZ 2)) * 180 / m.PI)
  let AccErrorY := g.AccErrorY + (m.atan (-1 * AccX / m.sqrt (pow AccY 2 + pow AccZ 2)) * 180 / m.PI)
  ({ g with AccX := AccX, AccY := AccY, AccZ := AccZ,
            AccErrorX := AccErrorX, AccErrorY := AccErrorY, c := wrapInt (g.c + 1) }, w)

/-- Body of the second `while (c < 200)` loop of `calculate_IMU_error`. -/
def gyroStep (g : Globals) (w : TwoWire) : Globals × TwoWire :=
  let w := w.beginTransmission g.MPU
  let w := w.write 0x43
  let w := w.endTransmission false
  let w := w.requestFrom g.MPU 6 true
  let r := w.readWord
  let GyroX := toFloat r.1
  let r := r.2.readWord
  let GyroY := toFloat r.1
  let r := r.2.readWord
  let GyroZ := toFloat r.1
  let w := r.2
  let GyroErrorX := g.GyroErrorX + (GyroX / 131.0)
  let GyroErrorY := g.GyroErrorY + (GyroY / 131.0)
  let GyroErrorZ := g.GyroErrorZ + (GyroZ / 131.0)
  ({ g with GyroX := GyroX, GyroY := GyroY, GyroZ := GyroZ,
            GyroErrorX := GyroErrorX, GyroErrorY := GyroErrorY, GyroErrorZ := GyroErrorZ,
            c := wrapInt (g.c + 1) }, w)

/-- The loop `while (c < 200) body`, unrolled at most `fuel` times. -/
def whileLt200 (body : Globals → TwoWire → Globals × TwoWire) :
    Nat → Globals → TwoWire → Globals × TwoWire
  | 0, g, w => (g, w)
  | fuel + 1, g, w =>
    if toSigned g.c < 200 then whileLt200 body fuel (body g w).1 (body g w).2 else (g, w)

/-- The number of iterations after which `while (c < 200)` has left the loop:
the distance of the signed counter from 200. -/
def loopFuel (g : Globals) : Nat := (200 - toSigned g.c).toNat

/-- The function `void calculate_IMU_error()`. The `Serial` output at its end prints the five
error values and changes nothing; it is left out. -/
def calculate_IMU_error (m : MathLib) (g : Globals) (w : TwoWire) : Globals × TwoWire :=
  let r := whileLt200 (accStep m) (loopFuel g) g w
  let g := r.1
  let w := r.2
  let g := { g with AccErrorX := g.AccErrorX / 200 }
  let g := { g with AccErrorY := g.AccErrorY / 200 }
  let g := { g with c := 0 }
  let r := whileLt200 gyroStep (loopFuel g) g w
  let g := r.1
  let w := r.2
  let g := { g with GyroErrorX := g.GyroErrorX / 200 }
  let g := { g with GyroErrorY := g.GyroErrorY / 200 }
  let g := { g with GyroErrorZ := g.GyroErrorZ / 200 }
  (g, w)

/-- The globals and the bus of `calculate_IMU_error` between its two loops: after
the first loop, the two divisions by 200 and `c = 0`. -/
def midState (m : MathLib) (g : Globals) (w : TwoWire) : Globals × TwoWire :=
  let r := whileLt200 (accStep m) (loopFuel g) g w
  ({ r.1 with AccErrorX := r.1.AccErrorX / 200, AccErrorY := r.1.AccErrorY / 200, c := 0 }, r.2)

/-! ## What the specification says -/

/-- The spec's reading of a register pair: `(hi<<8 | lo)` as a big-endian signed
16-bit integer in `-32768..32767`. -/
def int16BE (hi lo : Nat) : Int :=
  if hi * 256 + lo < 32768 then (hi * 256 + lo : Int) else (hi * 256 + lo : Int) - 65536

/-- The spec's `scale()`: raw value times scale factor plus offset. -/
def scaleSpec (raw : Int) (factor offset : ℚ) : ℚ := (raw : ℚ) * factor + offset

/-- The spec's tilt formula `angleX = atan(ay / sqrt(ax² + az²))` in degrees. -/
def tiltX (m : MathLib) (ax ay az : ℚ) : ℚ := m.atan (ay / m.sqrt (ax ^ 2 + az ^ 2)) * 180 / m.PI

/-- The spec's tilt formula `angleY = atan(-ax / sqrt(ay² + az²))` in degrees. -/
def tiltY (m : MathLib) (ax ay az : ℚ) : ℚ := m.atan (-ax / m.sqrt (ay ^ 2 + az ^ 2)) * 180 / m.PI

/-! ## Concrete inputs -/

/-- An object of the class with every member zero, as a sketch-level global
`MPU6050 mpu;` is before its first tick (the constructor sets the address only). -/
def MPU6050.construct (address : Nat) : MPU6050 :=
  { roll := 0, pitch := 0, yaw := 0, MPU_ADDRESS := address,
    AccX := 0, AccY := 0, AccZ := 0, GyroX := 0, GyroY := 0, GyroZ := 0,
    accAngleX := 0, accAngleY := 0, gyroAngleX := 0, gyroAngleY := 0, gyroAngleZ := 0,
    AccErrorX := 0, AccErrorY := 0, GyroErrorX := 0, GyroErrorY := 0, GyroErrorZ := 0,
    elapsedTime := 0, currentTime := 0, previousTime := 0 }

/-- The calibration globals with the counter and every `float` at zero. -/
def Globals.fresh (address : Nat) : Globals :=
  { MPU := address, c := 0, AccX := 0, AccY := 0, AccZ := 0, GyroX := 0, GyroY := 0, GyroZ := 0,
    AccErrorX := 0, AccErrorY := 0, GyroErrorX := 0, GyroErrorY := 0, GyroErrorZ := 0 }

/-- A bus whose device answers every read of the accelerometer block (register
`0x3B`) with `acc` and every read of the gyroscope block (`0x43`) with `gyro`. -/
def constBus (acc gyro : List Nat) : TwoWire :=
  { device := fun _ r _ => if r = 0x3B then acc else if r = 0x43 then gyro else [],
    txn := 0, reg := 0, rx := [] }

/-- A stand-in for the math library that is exact at the points the level
sample evaluates: `atan 0 = 0`, `sqrt 0 = 0`, `sqrt 1 = 1`; `PI` is `22/7`. -/
def stubMath : MathLib := { atan := fun x => x, sqrt := fun x => x, PI := 22 / 7 }

/-- Register bytes of the level sample: raw acceleration `(0, 0, 16384)`. -/
def levelAcc : List Nat := [0, 0, 0, 0, 0x40, 0]

/-- Register bytes of a gyroscope at rest: raw rates `(0, 0, 0)`. -/
def restGyro : List Nat := [0, 0, 0, 0, 0, 0]

/-- Register bytes of a turning gyroscope: raw rates `(-131, 131, 0)`. -/
def spinGyro : List Nat := [0xFF, 0x7D, 0x00, 0x83, 0, 0]

/-- An object whose last tick was observed at clock reading 1000 ms. -/
def lateState : MPU6050 := { MPU6050.construct 0x68 with currentTime := 1000 }

/-- The bus after the request sequence the source issues before each block
read: `beginTransmission`, `write(reg)`, `endTransmission(false)`,
`requestFrom(address, 6, true)`. -/
def afterRequest (w : TwoWire) (address reg : Nat) : TwoWire :=
  (((w.beginTransmission address).write reg).endTransmission false).requestFrom address 6 true

/-- The bus after three words have been read. -/
def afterWords (w : TwoWire) : TwoWire := w.readWord.2.readWord.2.readWord.2

/-- The word `readWord` returns and the buffer it leaves, as a function of the
buffer alone. -/
def wordOf : List Nat → Nat × List Nat
  | [] => (bor (shl (2 ^ INT_BITS - 1) 8) (2 ^ INT_BITS - 1), [])
  | [hi] => (bor (shl hi 8) (2 ^ INT_BITS - 1), [])
  | hi :: lo :: rest => (bor (shl hi 8) lo, rest)

/-- A bus whose accelerometer block breaks off after three of the six bytes. -/
def shortBus : TwoWire := constBus [0, 0, 0] restGyro

/-- An object whose five stored error members are set to 1. -/
def offsetState : MPU6050 :=
  { MPU6050.construct 0x68 with
    AccErrorX := 1, AccErrorY := 1, GyroErrorX := 1, GyroErrorY := 1, GyroErrorZ := 1 }

/-- The three words a block read takes off a receive buffer, converted to `float`. -/
def blockWords (rx : List Nat) : ℚ × ℚ × ℚ :=
  (toFloat (wordOf rx).1, toFloat (wordOf (wordOf rx).2).1,
    toFloat (wordOf (wordOf (wordOf rx).2).2).1)

/-- The receive buffer after transaction `t` asked the device `d` for the block
at register `r`. -/
def blockAt (d : Nat → Nat → Nat → List Nat) (t r : Nat) : List Nat :=
  ((d t r 6).take 6).map (fun b => b % 256)

/-- The tilt angle about X of the accelerometer sample read on transaction `t`. -/
def accTiltX (m : MathLib) (d : Nat → Nat → Nat → List Nat) (t : Nat) : ℚ :=
  tiltX m ((blockWords (blockAt d t 0x3B)).1 / 16384) ((blockWords (blockAt d t 0x3B)).2.1 / 16384)
    ((blockWords (blockAt d t 0x3B)).2.2 / 16384)

/-- The tilt angle about Y of the accelerometer sample read on transaction `t`. -/
def accTiltY (m : MathLib) (d : Nat → Nat → Nat → List Nat) (t : Nat) : ℚ :=
  tiltY m ((blockWords (blockAt d t 0x3B)).1 / 16384) ((blockWords (blockAt d t 0x3B)).2.1 / 16384)
    ((blockWords (blockAt d t 0x3B)).2.2 / 16384)

/-- The X rate of the gyroscope sample read on transaction `t`, raw value over 131. -/
def gyroRateX (d : Nat → Nat → Nat → List Nat) (t : Nat) : ℚ :=
  (blockWords (blockAt d t 0x43)).1 / 131

/-- The Y rate of the gyroscope sample read on transaction `t`, raw value over 131. -/
def gyroRateY (d : Nat → Nat → Nat → List Nat) (t : Nat) : ℚ :=
  (blockWords (blockAt d t 0x43)).2.1 / 131

/-- The Z rate of the gyroscope sample read on transaction `t`, raw value over 131. -/
def gyroRateZ (d : Nat → Nat → Nat → List Nat) (t : Nat) : ℚ :=
  (blockWords (blockAt d t 0x43)).2.2 / 131

/-- The sum of a per-sample value over the `n` transactions that start at `t0`. -/
def sumTo (f : Nat → ℚ) (t0 n : Nat) : ℚ := Finset.sum (Finset.range n) (fun i => f (t0 + i))

/-- The calibration run from fresh globals on a bus that always answers with
the level sample and the gyroscope turning at raw `(-131, 131, 0)`. -/
def firstRun : Globals × TwoWire :=
  calculate_IMU_error stubMath (Globals.fresh 0x68) (constBus levelAcc spinGyro)

/-- The calibration run once more, on what the first run left behind. -/
def secondRun : Globals × TwoWire := calculate_IMU_error stubMath firstRun.1 firstRun.2

/-! ## Arithmetic in binary32 -/

namespace Binary32

/-- The binary logarithm of `n`, rounded down, by halving at most `fuel` times. -/
def log2Fuel : Nat → Nat → Nat
  | 0, _ => 0
  | fuel + 1, n => if 2 ≤ n then log2Fuel fuel (n / 2) + 1 else 0

/-- The binary logarithm of `n`, rounded down (`0` for `n = 0`). -/
def ilog2 (n : Nat) : Nat := log2Fuel n n

/-- The integer nearest to `y`, the even one of the two when `y` lies half way. -/
def roundEven (y : ℚ) : Int :=
  if y - ⌊y⌋ < 1 / 2 then ⌊y⌋
  else if 1 / 2 < y - ⌊y⌋ then ⌊y⌋ + 1
  else if ⌊y⌋ % 2 = 0 then ⌊y⌋ else ⌊y⌋ + 1

/-- The binary exponent of `x ≠ 0`: the `e` with `2 ^ e ≤ |x| < 2 ^ (e + 1)`. The
difference of the logarithms of numerator and denominator is `e` or `e + 1`. -/
def expOf (x : ℚ) : Int :=
  if (2 : ℚ) ^ ((ilog2 x.num.natAbs : Int) - (ilog2 x.den : Int)) ≤ |x| then
    (ilog2 x.num.natAbs : Int) - (ilog2 x.den : Int)
  else (ilog2 x.num.natAbs : Int) - (ilog2 x.den : Int) - 1

/-- The spacing of the binary32 values around `x`: 24 significant bits, and
never finer than `2 ^ (-149)` (gradual underflow below `2 ^ (-126)`). -/
def ulp (x : ℚ) : ℚ := (2 : ℚ) ^ (max (expOf x) (-126) - 23)

/-- The result of a `float` operation whose exact result is `x`: the binary32
value nearest to `x`, ties to even. Overflow to infinity and NaN are not
modelled; the theorems that rely on their absence bound the operands. -/
def nearest (x : ℚ) : ℚ := if x = 0 then 0 else (roundEven (x / ulp x) : ℚ) * ulp x

/-- The member `const float GAIN = 0.96;`: the binary32 value nearest to 0.96. -/
def GAIN : ℚ := nearest 0.96

/-- The method `void MPU6050::complementaryFilterFIR()`, every product,
difference and sum rounded to binary32. -/
def complementaryFilterFIR (s : MPU6050) : MPU6050 :=
  let roll := nearest (nearest (GAIN * s.gyroAngleX) + nearest (nearest (1 - GAIN) * s.accAngleX))
  let pitch := nearest (nearest (GAIN * s.gyroAngleY) + nearest (nearest (1 - GAIN) * s.accAngleY))
  { s with roll := roll, pitch := pitch }

/-- The method `void MPU6050::calculateAngles()`, every product and sum rounded
to binary32. -/
def calculateAngles (s : MPU6050) : MPU6050 :=
  let gyroAngleX := nearest (s.gyroAngleX + nearest (s.GyroX * s.elapsedTime))
  let gyroAngleY := nearest (s.gyroAngleY + nearest (s.GyroY * s.elapsedTime))
  let yaw := nearest (s.yaw + nearest (s.GyroZ * s.elapsedTime))
  { s with gyroAngleX := gyroAngleX, gyroAngleY := gyroAngleY, yaw := yaw }

/-- The rounding allowance of the blend of `g` and `a`: three relative
roundings of at most `2 ^ (-24)` and the underflow allowance. -/
def blendTol (g a : ℚ) : ℚ := 3 * max |g| |a| / 2 ^ 24 + 1 / 2 ^ 148

/-- The rounding allowance of `N` integration steps of size `c`. -/
def sumTol (c : ℚ) (N : Nat) : ℚ := 3 * (N : ℚ) ^ 2 * |c| / 2 ^ 24 + (N : ℚ) / 2 ^ 148

end Binary32

/-- An object whose two roll angles are the same binary32 value
`8826933 / 2 ^ 17` (about 67.34 degrees), and likewise its two pitch angles. -/
def tightState : MPU6050 :=
  { MPU6050.construct 0x68 with
    gyroAngleX := 8826933 / 131072, accAngleX := 8826933 / 131072,
    gyroAngleY := 8826933 / 131072, accAngleY := 8826933 / 131072 }

/-- An object with zero accumulators, the rate 1.5 deg/s on every axis and
`elapsedTime` the binary32 value of 0.01 s. -/
def steadyState : MPU6050 :=
  { MPU6050.construct 0x68 with
    GyroX := 3 / 2, GyroY := 3 / 2, GyroZ := 3 / 2, elapsedTime := Binary32.nearest (1 / 100) }

/-! ## Theorems -/

/-! ### Register words -/

theorem wrapInt_of_lt {n : Nat} (h : n < 65536) : wrapInt n = n := by
  unfold wrapInt INT_BITS
  exact Nat.mod_eq_of_lt (by norm_num; exact h)

theorem bor_shl_bytes {hi lo : Nat} (hhi : hi < 256) (hlo : lo < 256) :
    bor (shl hi 8) lo = hi * 256 + lo := by
  have h1 : hi <<< 8 = 2 ^ 8 * hi := by rw [Nat.shiftLeft_eq, Nat.mul_comm]
  have h2 : hi * 256 + lo < 65536 := by omega
  have h3 : 2 ^ 8 * hi + lo = 2 ^ 8 * hi ||| lo :=
    Nat.mul_add_lt_is_or (by norm_num; exact hlo) hi
  have h4 : wrapInt (2 ^ 8 * hi) = 2 ^ 8 * hi := wrapInt_of_lt (by omega)
  have h5 : wrapInt (2 ^ 8 * hi + lo) = 2 ^ 8 * hi + lo := wrapInt_of_lt (by omega)
  unfold bor shl
  rw [h1, h4, ← h3, h5]
  omega

theorem toSigned_bytes {hi lo : Nat} (hhi : hi < 256) (hlo : lo < 256) :
    toSigned (hi * 256 + lo) = int16BE hi lo := by
  have h2 : hi * 256 + lo < 65536 := by omega
  unfold toSigned int16BE
  rw [wrapInt_of_lt h2]
  norm_num [INT_BITS]

theorem int16BE_range {hi lo : Nat} (hhi : hi < 256) (hlo : lo < 256) :
    -32768 ≤ int16BE hi lo ∧ int16BE hi lo ≤ 32767 := by
  unfold int16BE
  split_ifs <;> constructor <;> omega

theorem toFloat_word {hi lo : Nat} (hhi : hi < 256) (hlo : lo < 256) :
    toFloat (bor (shl hi 8) lo) = (int16BE hi lo : ℚ) := by
  rw [bor_shl_bytes hhi hlo]
  unfold toFloat
  rw [toSigned_bytes hhi hlo]

/-! ### The bus -/

@[simp] theorem read_device (w : TwoWire) : w.read.2.device = w.device := by
  unfold TwoWire.read
  split <;> rfl

@[simp] theorem read_txn (w : TwoWire) : w.read.2.txn = w.txn := by
  unfold TwoWire.read
  split <;> rfl

@[simp] theorem read_reg (w : TwoWire) : w.read.2.reg = w.reg := by
  unfold TwoWire.read
  split <;> rfl

@[simp] theorem readWord_device (w : TwoWire) : w.readWord.2.device = w.device := by
  simp [TwoWire.readWord]

@[simp] theorem readWord_txn (w : TwoWire) : w.readWord.2.txn = w.txn := by
  simp [TwoWire.readWord]

@[simp] theorem readWord_reg (w : TwoWire) : w.readWord.2.reg = w.reg := by
  simp [TwoWire.readWord]

@[simp] theorem afterWords_device (w : TwoWire) : (afterWords w).device = w.device := by
  simp [afterWords]

@[simp] theorem afterWords_txn (w : TwoWire) : (afterWords w).txn = w.txn := by
  simp [afterWords]

@[simp] theorem afterRequest_device (w : TwoWire) (a r : Nat) :
    (afterRequest w a r).device = w.device := rfl

@[simp] theorem afterRequest_txn (w : TwoWire) (a r : Nat) :
    (afterRequest w a r).txn = w.txn + 1 := rfl

theorem afterRequest_rx (w : TwoWire) (a r : Nat) :
    (afterRequest w a r).rx = ((w.device w.txn r 6).take 6).map (fun b => b % 256) := rfl

/-- Reading one word off a buffer that holds at least two bytes. -/
theorem readWord_cons (w : TwoWire) (hi lo : Nat) (rest : List Nat)
    (h : w.rx = hi :: lo :: rest) :
    w.readWord = (bor (shl hi 8) lo, { w with rx := rest }) := by
  simp [TwoWire.readWord, TwoWire.read, h]

/-- The three words of a block whose six bytes all arrived. -/
theorem readWord_block (w : TwoWire) (b0 b1 b2 b3 b4 b5 : Nat)
    (h : w.rx = [b0, b1, b2, b3, b4, b5])
    (h0 : b0 < 256) (h1 : b1 < 256) (h2 : b2 < 256) (h3 : b3 < 256) (h4 : b4 < 256)
    (h5 : b5 < 256) :
    toFloat w.readWord.1 = (int16BE b0 b1 : ℚ) ∧
    toFloat w.readWord.2.readWord.1 = (int16BE b2 b3 : ℚ) ∧
    toFloat w.readWord.2.readWord.2.readWord.1 = (int16BE b4 b5 : ℚ) ∧
    (afterWords w).rx = [] := by
  have e1 := readWord_cons w b0 b1 _ h
  have e2 := readWord_cons { w with rx := [b2, b3, b4, b5] } b2 b3 _ rfl
  have e3 := readWord_cons { w with rx := [b4, b5] } b4 b5 _ rfl
  simp only [afterWords, e1, e2, e3, toFloat_word h0 h1, toFloat_word h2 h3, toFloat_word h4 h5,
    and_self]

/-- The answer of the device as it sits in the buffer after the request. -/
theorem afterRequest_block (w : TwoWire) (a r : Nat) (b0 b1 b2 b3 b4 b5 : Nat)
    (h : w.device w.txn r 6 = [b0, b1, b2, b3, b4, b5])
    (h0 : b0 < 256) (h1 : b1 < 256) (h2 : b2 < 256) (h3 : b3 < 256) (h4 : b4 < 256)
    (h5 : b5 < 256) :
    (afterRequest w a r).rx = [b0, b1, b2, b3, b4, b5] := by
  rw [afterRequest_rx, h]
  simp [Nat.mod_eq_of_lt, h0, h1, h2, h3, h4, h5]

/-! ### `readSensor`, field by field -/

theorem readSensor_AccX (m : MathLib) (t : Nat) (s : MPU6050) (w : TwoWire) :
    (MPU6050.readSensor m t s w).1.AccX =
      toFloat (afterRequest w s.MPU_ADDRESS 0x3B).readWord.1 / 16384.0 := rfl

theorem readSensor_AccY (m : MathLib) (t : Nat) (s : MPU6050) (w : TwoWire) :
    (MPU6050.readSensor m t s w).1.AccY =
      toFloat (afterRequest w s.MPU_ADDRESS 0x3B).readWord.2.readWord.1 / 16384.0 := rfl

theorem readSensor_AccZ (m : MathLib) (t : Nat) (s : MPU6050) (w : TwoWire) :
    (MPU6050.readSensor m t s w).1.AccZ =
      toFloat (afterRequest w s.MPU_ADDRESS 0x3B).readWord.2.readWord.2.readWord.1 / 16384.0 :=
  rfl

/-- The bus on which `readSensor` reads the gyroscope block. -/
theorem readSensor_GyroX (m : MathLib) (t : Nat) (s : MPU6050) (w : TwoWire) :
    (MPU6050.readSensor m t s w).1.GyroX =
      toFloat (afterRequest (afterWords (afterRequest w s.MPU_ADDRESS 0x3B))
        s.MPU_ADDRESS 0x43).readWord.1 / 131.0 + 1.58 := rfl

theorem readSensor_GyroY (m : MathLib) (t : Nat) (s : MPU6050) (w : TwoWire) :
    (MPU6050.readSensor m t s w).1.GyroY =
      toFloat (afterRequest (afterWords (afterRequest w s.MPU_ADDRESS 0x3B))
        s.MPU_ADDRESS 0x43).readWord.2.readWord.1 / 131.0 - 0.47 := rfl

theorem readSensor_GyroZ (m : MathLib) (t : Nat) (s : MPU6050) (w : TwoWire) :
    (MPU6050.readSensor m t s w).1.GyroZ =
      toFloat (afterRequest (afterWords (afterRequest w s.MPU_ADDRESS 0x3B))
        s.MPU_ADDRESS 0x43).readWord.2.readWord.2.readWord.1 / 131.0 + 0.60 := rfl

/-- The six scaled values `readSensor` stores when both blocks arrive in full. -/
theorem readSensor_words (m : MathLib) (t : Nat) (s : MPU6050) (w : TwoWire)
    (a0 a1 a2 a3 a4 a5 g0 g1 g2 g3 g4 g5 : Nat)
    (h0 : a0 < 256) (h1 : a1 < 256) (h2 : a2 < 256) (h3 : a3 < 256) (h4 : a4 < 256)
    (h5 : a5 < 256) (k0 : g0 < 256) (k1 : g1 < 256) (k2 : g2 < 256) (k3 : g3 < 256)
    (k4 : g4 < 256) (k5 : g5 < 256)
    (hA : w.device w.txn 0x3B 6 = [a0, a1, a2, a3, a4, a5])
    (hG : w.device (w.txn + 1) 0x43 6 = [g0, g1, g2, g3, g4, g5]) :
    (MPU6050.readSensor m t s w).1.AccX = (int16BE a0 a1 : ℚ) / 16384 ∧
    (MPU6050.readSensor m t s w).1.AccY = (int16BE a2 a3 : ℚ) / 16384 ∧
    (MPU6050.readSensor m t s w).1.AccZ = (int16BE a4 a5 : ℚ) / 16384 ∧
    (MPU6050.readSensor m t s w).1.GyroX = (int16BE g0 g1 : ℚ) / 131 + 1.58 ∧
    (MPU6050.readSensor m t s w).1.GyroY = (int16BE g2 g3 : ℚ) / 131 - 0.47 ∧
    (MPU6050.readSensor m t s w).1.GyroZ = (int16BE g4 g5 : ℚ) / 131 + 0.60 := by
  have rA := afterRequest_block w s.MPU_ADDRESS 0x3B a0 a1 a2 a3 a4 a5 hA h0 h1 h2 h3 h4 h5
  obtain ⟨x1, x2, x3, -⟩ := readWord_block _ a0 a1 a2 a3 a4 a5 rA h0 h1 h2 h3 h4 h5
  have rG := afterRequest_block (afterWords (afterRequest w s.MPU_ADDRESS 0x3B)) s.MPU_ADDRESS
    0x43 g0 g1 g2 g3 g4 g5 (by simpa using hG) k0 k1 k2 k3 k4 k5
  obtain ⟨y1, y2, y3, -⟩ := readWord_block _ g0 g1 g2 g3 g4 g5 rG k0 k1 k2 k3 k4 k5
  rw [readSensor_AccX, readSensor_AccY, readSensor_AccZ, readSensor_GyroX, readSensor_GyroY,
    readSensor_GyroZ, x1, x2, x3, y1, y2, y3]
  norm_num

/-- The level sample with the gyroscope at rest, as `readSensor` stores it. -/
theorem readSensor_level (m : MathLib) (t : Nat) (s : MPU6050) :
    (MPU6050.readSensor m t s (constBus levelAcc restGyro)).1.AccX = 0 ∧
    (MPU6050.readSensor m t s (constBus levelAcc restGyro)).1.AccY = 0 ∧
    (MPU6050.readSensor m t s (constBus levelAcc restGyro)).1.AccZ = 1 ∧
    (MPU6050.readSensor m t s (constBus levelAcc restGyro)).1.GyroX = 1.58 ∧
    (MPU6050.readSensor m t s (constBus levelAcc restGyro)).1.GyroY = -0.47 ∧
    (MPU6050.readSensor m t s (constBus levelAcc restGyro)).1.GyroZ = 0.60 := by
  have h := readSensor_words m t s (constBus levelAcc restGyro) 0 0 0 0 0x40 0 0 0 0 0 0 0
    (by decide) (by decide) (by decide) (by decide) (by decide) (by decide)
    (by decide) (by decide) (by decide) (by decide) (by decide) (by decide) rfl rfl
  have e1 : int16BE 0 0 = 0 := by decide
  have e2 : int16BE 0x40 0 = 16384 := by decide
  rw [e1, e2] at h
  norm_num at h
  norm_num
  exact h

/-- The tilt angles `readSensor` stores, in terms of the scaled values it stores. -/
theorem readSensor_accAngle (m : MathLib) (t : Nat) (s : MPU6050) (w : TwoWire) :
    (MPU6050.readSensor m t s w).1.accAngleX =
      tiltX m (MPU6050.readSensor m t s w).1.AccX (MPU6050.readSensor m t s w).1.AccY
        (MPU6050.readSensor m t s w).1.AccZ - 0.58 ∧
    (MPU6050.readSensor m t s w).1.accAngleY =
      tiltY m (MPU6050.readSensor m t s w).1.AccX (MPU6050.readSensor m t s w).1.AccY
        (MPU6050.readSensor m t s w).1.AccZ + 1.58 := by
  refine ⟨rfl, ?_⟩
  show m.atan (-1 * (MPU6050.readSensor m t s w).1.AccX / _) * 180 / m.PI + 1.58 = _
  rw [neg_one_mul]
  rfl

/-- Timestamps after `readSensor`. -/
theorem readSensor_time (m : MathLib) (t : Nat) (s : MPU6050) (w : TwoWire) :
    (MPU6050.readSensor m t s w).1.previousTime = s.currentTime ∧
    (MPU6050.readSensor m t s w).1.currentTime = (t : ℚ) ∧
    (MPU6050.readSensor m t s w).1.elapsedTime = ((t : ℚ) - s.currentTime) / 1000 :=
  ⟨rfl, rfl, rfl⟩

/-- The members `readSensor` does not assign. -/
theorem readSensor_frame (m : MathLib) (t : Nat) (s : MPU6050) (w : TwoWire) :
    (MPU6050.readSensor m t s w).1.gyroAngleX = s.gyroAngleX ∧
    (MPU6050.readSensor m t s w).1.gyroAngleY = s.gyroAngleY ∧
    (MPU6050.readSensor m t s w).1.yaw = s.yaw ∧
    (MPU6050.readSensor m t s w).1.roll = s.roll ∧
    (MPU6050.readSensor m t s w).1.pitch = s.pitch :=
  ⟨rfl, rfl, rfl, rfl, rfl⟩

/-- The state after `N` calls of `calculateAngles`. -/
theorem calculateAngles_iterate (N : Nat) (s : MPU6050) :
    (MPU6050.calculateAngles^[N] s).gyroAngleX = s.gyroAngleX + s.GyroX * s.elapsedTime * N ∧
    (MPU6050.calculateAngles^[N] s).gyroAngleY = s.gyroAngleY + s.GyroY * s.elapsedTime * N ∧
    (MPU6050.calculateAngles^[N] s).yaw = s.yaw + s.GyroZ * s.elapsedTime * N ∧
    (MPU6050.calculateAngles^[N] s).GyroX = s.GyroX ∧
    (MPU6050.calculateAngles^[N] s).GyroY = s.GyroY ∧
    (MPU6050.calculateAngles^[N] s).GyroZ = s.GyroZ ∧
    (MPU6050.calculateAngles^[N] s).elapsedTime = s.elapsedTime := by
  induction N with
  | zero => simp
  | succ n ih =>
    obtain ⟨a, b, c, d, e, f, g⟩ := ih
    rw [Function.iterate_succ_apply']
    simp only [MPU6050.calculateAngles, a, b, c, d, e, f, g, Nat.cast_succ]
    refine ⟨by ring, by ring, by ring, trivial, trivial, trivial, trivial⟩

/-! ### The calibration loops -/

theorem toSigned_small {n : Nat} (h : n < 32768) : toSigned n = (n : Int) := by
  unfold toSigned
  rw [wrapInt_of_lt (by omega)]
  norm_num [INT_BITS]
  exact h

/-- Running `while (c < 200)` from a counter in `0..200` with the fuel that is
left to 200: an invariant that every pass of the body carries forward holds at
the exit, where the counter is 200. -/
theorem whileLt200_run (body : Globals → TwoWire → Globals × TwoWire)
    (hc : ∀ g w, (body g w).1.c = wrapInt (g.c + 1))
    (P : Nat → Globals → TwoWire → Prop)
    (hstep : ∀ j g w, j < 200 → g.c = j → P j g w → P (j + 1) (body g w).1 (body g w).2) :
    ∀ (k : Nat) (g : Globals) (w : TwoWire), g.c + k = 200 → P g.c g w →
      P 200 (whileLt200 body k g w).1 (whileLt200 body k g w).2 := by
  intro k
  induction k with
  | zero =>
    intro g w h hP
    have h200 : g.c = 200 := by omega
    rw [h200] at hP
    exact hP
  | succ k ih =>
    intro g w h hP
    have hlt : toSigned g.c < 200 := by
      rw [toSigned_small (by omega)]
      omega
    have hnext : (body g w).1.c = g.c + 1 := by
      rw [hc, wrapInt_of_lt (by omega)]
    have hunf : whileLt200 body (k + 1) g w = whileLt200 body k (body g w).1 (body g w).2 := by
      show (if toSigned g.c < 200 then _ else _) = _
      rw [if_pos hlt]
    rw [hunf]
    apply ih
    · omega
    · rw [hnext]
      exact hstep g.c g w (by omega) rfl hP

/-- Once the counter is not below 200 the loop does nothing, whatever fuel is left. -/
theorem whileLt200_done (body : Globals → TwoWire → Globals × TwoWire) (k : Nat) (g : Globals)
    (w : TwoWire) (h : ¬ toSigned g.c < 200) : whileLt200 body k g w = (g, w) := by
  cases k with
  | zero => rfl
  | succ k =>
    show (if toSigned g.c < 200 then _ else _) = _
    rw [if_neg h]

/-- One pass of the loop while the counter is below 200. -/
theorem whileLt200_step (body : Globals → TwoWire → Globals × TwoWire) (k : Nat) (g : Globals)
    (w : TwoWire) (h : toSigned g.c < 200) :
    whileLt200 body (k + 1) g w = whileLt200 body k (body g w).1 (body g w).2 := by
  show (if toSigned g.c < 200 then _ else _) = _
  rw [if_pos h]

/-- Fuel can be spent in two instalments. -/
theorem whileLt200_add (body : Globals → TwoWire → Globals × TwoWire) (k k' : Nat) :
    ∀ (g : Globals) (w : TwoWire), whileLt200 body (k + k') g w =
      whileLt200 body k' (whileLt200 body k g w).1 (whileLt200 body k g w).2 := by
  induction k with
  | zero =>
    intro g w
    rw [Nat.zero_add]
    rfl
  | succ k ih =>
    intro g w
    have e : k + 1 + k' = (k + k') + 1 := by omega
    rw [e]
    by_cases h : toSigned g.c < 200
    · rw [whileLt200_step body (k + k') g w h, whileLt200_step body k g w h]
      exact ih _ _
    · rw [whileLt200_done body (k + k' + 1) g w h, whileLt200_done body (k + 1) g w h,
        whileLt200_done body k' g w h]

/-- From a counter in `0..200` the loop leaves with the counter at 200 — the
condition `c < 200` is false there — and any further fuel changes nothing. -/
theorem whileLt200_exit (body : Globals → TwoWire → Globals × TwoWire)
    (hc : ∀ g w, (body g w).1.c = wrapInt (g.c + 1)) (k extra : Nat) (g : Globals) (w : TwoWire)
    (h : g.c + k = 200) :
    (whileLt200 body k g w).1.c = 200 ∧
    whileLt200 body (k + extra) g w = whileLt200 body k g w := by
  have hexit : (whileLt200 body k g w).1.c = 200 :=
    whileLt200_run body hc (fun j g' _ => g'.c = j) (fun j g' w' hj hg _ => by
      show (body g' w').1.c = j + 1
      rw [hc, wrapInt_of_lt (by omega)]
      omega) k g w h rfl
  refine ⟨hexit, ?_⟩
  rw [whileLt200_add, whileLt200_done]
  rw [hexit, toSigned_small (by norm_num)]
  norm_num

/-- What a pass of the accelerometer loop leaves alone, and the bus after it. -/
theorem accStep_frame (m : MathLib) (g : Globals) (w : TwoWire) :
    (accStep m g w).1.c = wrapInt (g.c + 1) ∧
    (accStep m g w).1.MPU = g.MPU ∧
    (accStep m g w).1.GyroErrorX = g.GyroErrorX ∧
    (accStep m g w).1.GyroErrorY = g.GyroErrorY ∧
    (accStep m g w).1.GyroErrorZ = g.GyroErrorZ ∧
    (accStep m g w).2.txn = w.txn + 1 ∧
    (accStep m g w).2.device = w.device := by
  refine ⟨rfl, rfl, rfl, rfl, rfl, ?_, ?_⟩
  · show (afterWords (afterRequest w g.MPU 0x3B)).txn = _
    simp
  · show (afterWords (afterRequest w g.MPU 0x3B)).device = _
    simp

/-- What a pass of the gyroscope loop leaves alone, and the bus after it. -/
theorem gyroStep_frame (g : Globals) (w : TwoWire) :
    (gyroStep g w).1.c = wrapInt (g.c + 1) ∧
    (gyroStep g w).1.MPU = g.MPU ∧
    (gyroStep g w).1.AccErrorX = g.AccErrorX ∧
    (gyroStep g w).1.AccErrorY = g.AccErrorY ∧
    (gyroStep g w).2.txn = w.txn + 1 ∧
    (gyroStep g w).2.device = w.device := by
  refine ⟨rfl, rfl, rfl, rfl, ?_, ?_⟩
  · show (afterWords (afterRequest w g.MPU 0x43)).txn = _
    simp
  · show (afterWords (afterRequest w g.MPU 0x43)).device = _
    simp

/-- The fuel of a loop that starts with the counter at zero. -/
theorem loopFuel_zero (g : Globals) (h : g.c = 0) : loopFuel g = 200 := by
  unfold loopFuel
  rw [h, toSigned_small (by norm_num)]
  rfl

/-- The five results of `calculate_IMU_error` in terms of its second loop. -/
theorem calculate_IMU_error_fields (m : MathLib) (g : Globals) (w : TwoWire) :
    (calculate_IMU_error m g w).1.AccErrorX =
      (whileLt200 gyroStep (loopFuel (midState m g w).1) (midState m g w).1
        (midState m g w).2).1.AccErrorX ∧
    (calculate_IMU_error m g w).1.AccErrorY =
      (whileLt200 gyroStep (loopFuel (midState m g w).1) (midState m g w).1
        (midState m g w).2).1.AccErrorY ∧
    (calculate_IMU_error m g w).1.GyroErrorX =
      (whileLt200 gyroStep (loopFuel (midState m g w).1) (midState m g w).1
        (midState m g w).2).1.GyroErrorX / 200 ∧
    (calculate_IMU_error m g w).1.GyroErrorY =
      (whileLt200 gyroStep (loopFuel (midState m g w).1) (midState m g w).1
        (midState m g w).2).1.GyroErrorY / 200 ∧
    (calculate_IMU_error m g w).1.GyroErrorZ =
      (whileLt200 gyroStep (loopFuel (midState m g w).1) (midState m g w).1
        (midState m g w).2).1.GyroErrorZ / 200 := by
  refine ⟨?_, ?_, ?_, ?_, ?_⟩ <;> simp only [calculate_IMU_error, midState]

/-- The globals between the two loops in terms of the first loop. -/
theorem midState_fields (m : MathLib) (g : Globals) (w : TwoWire) :
    (midState m g w).1.AccErrorX =
      (whileLt200 (accStep m) (loopFuel g) g w).1.AccErrorX / 200 ∧
    (midState m g w).1.AccErrorY =
      (whileLt200 (accStep m) (loopFuel g) g w).1.AccErrorY / 200 ∧
    (midState m g w).1.GyroErrorX = (whileLt200 (accStep m) (loopFuel g) g w).1.GyroErrorX ∧
    (midState m g w).1.GyroErrorY = (whileLt200 (accStep m) (loopFuel g) g w).1.GyroErrorY ∧
    (midState m g w).1.GyroErrorZ = (whileLt200 (accStep m) (loopFuel g) g w).1.GyroErrorZ ∧
    (midState m g w).1.c = 0 ∧
    (midState m g w).2 = (whileLt200 (accStep m) (loopFuel g) g w).2 := by
  refine ⟨?_, ?_, ?_, ?_, ?_, ?_, ?_⟩ <;> simp only [midState]

/-! ### Dependence on the bus -/

theorem readWord_wordOf (w : TwoWire) :
    w.readWord.1 = (wordOf w.rx).1 ∧ w.readWord.2.rx = (wordOf w.rx).2 := by
  rcases h : w.rx with _ | ⟨hi, _ | ⟨lo, rest⟩⟩ <;>
    simp [TwoWire.readWord, TwoWire.read, h, wordOf]

/-- The word read and the buffer left depend on the buffer only. -/
theorem readWord_congr (w w' : TwoWire) (h : w.rx = w'.rx) :
    w.readWord.1 = w'.readWord.1 ∧ w.readWord.2.rx = w'.readWord.2.rx := by
  obtain ⟨a, b⟩ := readWord_wordOf w
  obtain ⟨a', b'⟩ := readWord_wordOf w'
  rw [a, b, a', b', h]
  exact ⟨rfl, rfl⟩

/-- The third word of a block depends on the buffer only. -/
theorem thirdWord_congr (w w' : TwoWire) (h : w.rx = w'.rx) :
    w.readWord.2.readWord.2.readWord.1 = w'.readWord.2.readWord.2.readWord.1 := by
  have h1 := (readWord_congr w w' h).2
  have h2 := (readWord_congr _ _ h1).2
  exact (readWord_congr _ _ h2).1

/-- The buffer on which `readSensor` reads the gyroscope block. -/
theorem readSensor_gyro_rx (w : TwoWire) (a : Nat) :
    (afterRequest (afterWords (afterRequest w a 0x3B)) a 0x43).rx =
      ((w.device (w.txn + 1) 0x43 6).take 6).map (fun b => b % 256) := by
  rw [afterRequest_rx]
  simp

/-- The yaw after a tick. -/
theorem tick_yaw (m : MathLib) (t : Nat) (s : MPU6050) (w : TwoWire) :
    (tick m t s w).1.yaw = s.yaw +
      (MPU6050.readSensor m t s w).1.GyroZ * (MPU6050.readSensor m t s w).1.elapsedTime := rfl

/-! ### Ticks on the level sample -/

/-- The three words read off a bus are the `blockWords` of its buffer. -/
theorem readWord_blockWords (w : TwoWire) :
    toFloat w.readWord.1 = (blockWords w.rx).1 ∧
    toFloat w.readWord.2.readWord.1 = (blockWords w.rx).2.1 ∧
    toFloat w.readWord.2.readWord.2.readWord.1 = (blockWords w.rx).2.2 := by
  obtain ⟨a1, b1⟩ := readWord_wordOf w
  obtain ⟨a2, b2⟩ := readWord_wordOf w.readWord.2
  obtain ⟨a3, -⟩ := readWord_wordOf w.readWord.2.readWord.2
  rw [b1] at a2 b2
  rw [b2] at a3
  rw [a1, a2, a3]
  exact ⟨rfl, rfl, rfl⟩

/-- One pass of the accelerometer loop adds the tilt angles of the sample of
the current transaction. -/
theorem accStep_sample (m : MathLib) (g : Globals) (w : TwoWire) :
    (accStep m g w).1.AccErrorX = g.AccErrorX + accTiltX m w.device w.txn ∧
    (accStep m g w).1.AccErrorY = g.AccErrorY + accTiltY m w.device w.txn := by
  obtain ⟨x1, x2, x3⟩ := readWord_blockWords (afterRequest w g.MPU 0x3B)
  have hrx : (afterRequest w g.MPU 0x3B).rx = blockAt w.device w.txn 0x3B := rfl
  rw [hrx] at x1 x2 x3
  have eX : (accStep m g w).1.AccX = (blockWords (blockAt w.device w.txn 0x3B)).1 / 16384 := by
    show toFloat (afterRequest w g.MPU 0x3B).readWord.1 / 16384.0 = _
    rw [x1]
    norm_num
  have eY : (accStep m g w).1.AccY = (blockWords (blockAt w.device w.txn 0x3B)).2.1 / 16384 := by
    show toFloat (afterRequest w g.MPU 0x3B).readWord.2.readWord.1 / 16384.0 = _
    rw [x2]
    norm_num
  have eZ : (accStep m g w).1.AccZ = (blockWords (blockAt w.device w.txn 0x3B)).2.2 / 16384 := by
    show toFloat (afterRequest w g.MPU 0x3B).readWord.2.readWord.2.readWord.1 / 16384.0 = _
    rw [x3]
    norm_num
  unfold accTiltX accTiltY
  constructor
  · rw [← eX, ← eY, ← eZ]
    rfl
  · rw [← eX, ← eY, ← eZ]
    show g.AccErrorY + m.atan (-1 * (accStep m g w).1.AccX / _) * 180 / m.PI = _
    rw [neg_one_mul]
    rfl

/-- One pass of the gyroscope loop adds the rates of the sample of the current
transaction. -/
theorem gyroStep_sample (g : Globals) (w : TwoWire) :
    (gyroStep g w).1.GyroErrorX = g.GyroErrorX + gyroRateX w.device w.txn ∧
    (gyroStep g w).1.GyroErrorY = g.GyroErrorY + gyroRateY w.device w.txn ∧
    (gyroStep g w).1.GyroErrorZ = g.GyroErrorZ + gyroRateZ w.device w.txn := by
  obtain ⟨y1, y2, y3⟩ := readWord_blockWords (afterRequest w g.MPU 0x43)
  have hrx : (afterRequest w g.MPU 0x43).rx = blockAt w.device w.txn 0x43 := rfl
  rw [hrx] at y1 y2 y3
  unfold gyroRateX gyroRateY gyroRateZ
  refine ⟨?_, ?_, ?_⟩
  · show g.GyroErrorX + toFloat (afterRequest w g.MPU 0x43).readWord.1 / 131.0 = _
    rw [y1]
    norm_num
  · show g.GyroErrorY + toFloat (afterRequest w g.MPU 0x43).readWord.2.readWord.1 / 131.0 = _
    rw [y2]
    norm_num
  · show g.GyroErrorZ +
      toFloat (afterRequest w g.MPU 0x43).readWord.2.readWord.2.readWord.1 / 131.0 = _
    rw [y3]
    norm_num

theorem sumTo_succ (f : Nat → ℚ) (t0 n : Nat) : sumTo f t0 (n + 1) = sumTo f t0 n + f (t0 + n) := by
  unfold sumTo
  rw [Finset.sum_range_succ]

theorem sumTo_zero (f : Nat → ℚ) (t0 : Nat) : sumTo f t0 0 = 0 := by
  unfold sumTo
  simp

theorem sumTo_const (f : Nat → ℚ) (t0 n : Nat) (v : ℚ) (h : ∀ t, f t = v) :
    sumTo f t0 n = n * v := by
  unfold sumTo
  simp [h]

/-- The accelerometer loop from counter zero: 200 reads, each sum grown by the
tilt angles of the 200 samples, the counter at 200. -/
theorem accLoop_sum (m : MathLib) (g : Globals) (w : TwoWire) (hc : g.c = 0) :
    (whileLt200 (accStep m) 200 g w).1.AccErrorX =
      g.AccErrorX + sumTo (accTiltX m w.device) w.txn 200 ∧
    (whileLt200 (accStep m) 200 g w).1.AccErrorY =
      g.AccErrorY + sumTo (accTiltY m w.device) w.txn 200 ∧
    (whileLt200 (accStep m) 200 g w).1.GyroErrorX = g.GyroErrorX ∧
    (whileLt200 (accStep m) 200 g w).1.GyroErrorY = g.GyroErrorY ∧
    (whileLt200 (accStep m) 200 g w).1.GyroErrorZ = g.GyroErrorZ ∧
    (whileLt200 (accStep m) 200 g w).2.txn = w.txn + 200 ∧
    (whileLt200 (accStep m) 200 g w).2.device = w.device := by
  have key := whileLt200_run (accStep m) (fun g w => (accStep_frame m g w).1)
    (fun j g' w' =>
      g'.AccErrorX = g.AccErrorX + sumTo (accTiltX m w.device) w.txn j ∧
      g'.AccErrorY = g.AccErrorY + sumTo (accTiltY m w.device) w.txn j ∧
      g'.GyroErrorX = g.GyroErrorX ∧ g'.GyroErrorY = g.GyroErrorY ∧
      g'.GyroErrorZ = g.GyroErrorZ ∧ w'.txn = w.txn + j ∧ w'.device = w.device)
    (by
      rintro j g' w' - - ⟨p1, p2, p3, p4, p5, p6, p7⟩
      obtain ⟨q1, q2⟩ := accStep_sample m g' w'
      obtain ⟨-, -, f3, f4, f5, f6, f7⟩ := accStep_frame m g' w'
      refine ⟨?_, ?_, by rw [f3, p3], by rw [f4, p4], by rw [f5, p5], by rw [f6, p6]; ring,
        by rw [f7, p7]⟩
      · rw [q1, p1, p6, p7, sumTo_succ]
        ring
      · rw [q2, p2, p6, p7, sumTo_succ]
        ring)
    200 g w (by rw [hc]) (by rw [hc]; simp [sumTo_zero])
  exact key

/-- The gyroscope loop from counter zero: 200 reads, each sum grown by the
rates of the 200 samples, the counter at 200. -/
theorem gyroLoop_sum (g : Globals) (w : TwoWire) (hc : g.c = 0) :
    (whileLt200 gyroStep 200 g w).1.GyroErrorX =
      g.GyroErrorX + sumTo (gyroRateX w.device) w.txn 200 ∧
    (whileLt200 gyroStep 200 g w).1.GyroErrorY =
      g.GyroErrorY + sumTo (gyroRateY w.device) w.txn 200 ∧
    (whileLt200 gyroStep 200 g w).1.GyroErrorZ =
      g.GyroErrorZ + sumTo (gyroRateZ w.device) w.txn 200 ∧
    (whileLt200 gyroStep 200 g w).1.AccErrorX = g.AccErrorX ∧
    (whileLt200 gyroStep 200 g w).1.AccErrorY = g.AccErrorY ∧
    (whileLt200 gyroStep 200 g w).2.txn = w.txn + 200 ∧
    (whileLt200 gyroStep 200 g w).2.device = w.device := by
  have key := whileLt200_run gyroStep (fun g w => (gyroStep_frame g w).1)
    (fun j g' w' =>
      g'.GyroErrorX = g.GyroErrorX + sumTo (gyroRateX w.device) w.txn j ∧
      g'.GyroErrorY = g.GyroErrorY + sumTo (gyroRateY w.device) w.txn j ∧
      g'.GyroErrorZ = g.GyroErrorZ + sumTo (gyroRateZ w.device) w.txn j ∧
      g'.AccErrorX = g.AccErrorX ∧ g'.AccErrorY = g.AccErrorY ∧
      w'.txn = w.txn + j ∧ w'.device = w.device)
    (by
      rintro j g' w' - - ⟨p1, p2, p3, p4, p5, p6, p7⟩
      obtain ⟨q1, q2, q3⟩ := gyroStep_sample g' w'
      obtain ⟨-, -, f3, f4, f6, f7⟩ := gyroStep_frame g' w'
      refine ⟨?_, ?_, ?_, by rw [f3, p4], by rw [f4, p5], by rw [f6, p6]; ring, by rw [f7, p7]⟩
      · rw [q1, p1, p6, p7, sumTo_succ]
        ring
      · rw [q2, p2, p6, p7, sumTo_succ]
        ring
      · rw [q3, p3, p6, p7, sumTo_succ]
        ring)
    200 g w (by rw [hc]) (by rw [hc]; simp [sumTo_zero])
  exact key

/-- The counter and the bus `calculate_IMU_error` leaves, in terms of its
second loop. -/
theorem calculate_IMU_error_rest (m : MathLib) (g : Globals) (w : TwoWire) :
    (calculate_IMU_error m g w).1.c =
      (whileLt200 gyroStep (loopFuel (midState m g w).1) (midState m g w).1
        (midState m g w).2).1.c ∧
    (calculate_IMU_error m g w).2 =
      (whileLt200 gyroStep (loopFuel (midState m g w).1) (midState m g w).1
        (midState m g w).2).2 := by
  refine ⟨?_, ?_⟩ <;> simp only [calculate_IMU_error, midState]

/-- The second half of `calculate_IMU_error`, for every starting state: the
gyroscope loop always starts from counter zero, reads 200 blocks, and each
gyroscope result is the sum it found plus the 200 rates, over 200. -/
theorem calculate_IMU_error_gyro (m : MathLib) (g : Globals) (w : TwoWire) :
    (calculate_IMU_error m g w).1.AccErrorX = (midState m g w).1.AccErrorX ∧
    (calculate_IMU_error m g w).1.AccErrorY = (midState m g w).1.AccErrorY ∧
    (calculate_IMU_error m g w).1.GyroErrorX = ((midState m g w).1.GyroErrorX +
      sumTo (gyroRateX (midState m g w).2.device) (midState m g w).2.txn 200) / 200 ∧
    (calculate_IMU_error m g w).1.GyroErrorY = ((midState m g w).1.GyroErrorY +
      sumTo (gyroRateY (midState m g w).2.device) (midState m g w).2.txn 200) / 200 ∧
    (calculate_IMU_error m g w).1.GyroErrorZ = ((midState m g w).1.GyroErrorZ +
      sumTo (gyroRateZ (midState m g w).2.device) (midState m g w).2.txn 200) / 200 ∧
    (calculate_IMU_error m g w).1.c = 200 ∧
    (calculate_IMU_error m g w).2.txn = (midState m g w).2.txn + 200 ∧
    (calculate_IMU_error m g w).2.device = (midState m g w).2.device := by
  have n6 : (midState m g w).1.c = 0 := (midState_fields m g w).2.2.2.2.2.1
  have hf2 : loopFuel (midState m g w).1 = 200 := loopFuel_zero _ n6
  obtain ⟨b1, b2, b3, b4, b5, b6, b7⟩ := gyroLoop_sum (midState m g w).1 (midState m g w).2 n6
  obtain ⟨c1, c2, c3, c4, c5⟩ := calculate_IMU_error_fields m g w
  obtain ⟨c6, c7⟩ := calculate_IMU_error_rest m g w
  have hexit := (whileLt200_exit gyroStep (fun g w => (gyroStep_frame g w).1) 200 0
    (midState m g w).1 (midState m g w).2 (by rw [n6])).1
  rw [hf2] at c1 c2 c3 c4 c5 c6 c7
  rw [c1, c2, c3, c4, c5, c6, c7, b1, b2, b3, b4, b5, b6, b7, hexit]
  exact ⟨rfl, rfl, rfl, rfl, rfl, rfl, rfl, rfl⟩

/-- Between the loops, when the counter started at zero. -/
theorem midState_fresh (m : MathLib) (g : Globals) (w : TwoWire) (hc : g.c = 0) :
    (midState m g w).1.AccErrorX = (g.AccErrorX + sumTo (accTiltX m w.device) w.txn 200) / 200 ∧
    (midState m g w).1.AccErrorY = (g.AccErrorY + sumTo (accTiltY m w.device) w.txn 200) / 200 ∧
    (midState m g w).1.GyroErrorX = g.GyroErrorX ∧
    (midState m g w).1.GyroErrorY = g.GyroErrorY ∧
    (midState m g w).1.GyroErrorZ = g.GyroErrorZ ∧
    (midState m g w).2.txn = w.txn + 200 ∧
    (midState m g w).2.device = w.device := by
  obtain ⟨a1, a2, a3, a4, a5, a6, a7⟩ := accLoop_sum m g w hc
  obtain ⟨n1, n2, n3, n4, n5, -, n7⟩ := midState_fields m g w
  rw [loopFuel_zero g hc] at n1 n2 n3 n4 n5 n7
  rw [n1, n2, n3, n4, n5, n7, a1, a2, a3, a4, a5, a6, a7]
  exact ⟨rfl, rfl, rfl, rfl, rfl, rfl, rfl⟩

/-- Between the loops, when the counter started at 200 or above: the first loop
read nothing and the sums it found are divided by 200 all the same. -/
theorem midState_skip (m : MathLib) (g : Globals) (w : TwoWire) (hc : ¬ toSigned g.c < 200) :
    (midState m g w).1.AccErrorX = g.AccErrorX / 200 ∧
    (midState m g w).1.AccErrorY = g.AccErrorY / 200 ∧
    (midState m g w).1.GyroErrorX = g.GyroErrorX ∧
    (midState m g w).1.GyroErrorY = g.GyroErrorY ∧
    (midState m g w).1.GyroErrorZ = g.GyroErrorZ ∧
    (midState m g w).2 = w := by
  obtain ⟨n1, n2, n3, n4, n5, -, n7⟩ := midState_fields m g w
  rw [whileLt200_done (accStep m) (loopFuel g) g w hc] at n1 n2 n3 n4 n5 n7
  exact ⟨n1, n2, n3, n4, n5, n7⟩

/-- The bus of the two calibration runs hands back the X rate `-1` on every
gyroscope read. -/
theorem gyroRateX_spin (t : Nat) : gyroRateX (constBus levelAcc spinGyro).device t = -1 := by
  have hb : blockAt (constBus levelAcc spinGyro).device t 0x43 =
      [0xFF, 0x7D, 0x00, 0x83, 0, 0] := rfl
  have hw : (blockWords [0xFF, 0x7D, 0x00, 0x83, 0, 0]).1 = toFloat (bor (shl 0xFF 8) 0x7D) := rfl
  have hi : int16BE 0xFF 0x7D = -131 := by decide
  unfold gyroRateX
  rw [hb, hw, toFloat_word (by decide) (by decide), hi]
  norm_num

/-! ### Rounding to binary32 -/

namespace Binary32

theorem log2Fuel_spec : ∀ (fuel n : Nat), n ≤ fuel → n ≠ 0 →
    2 ^ log2Fuel fuel n ≤ n ∧ n < 2 ^ (log2Fuel fuel n + 1) := by
  intro fuel
  induction fuel with
  | zero =>
    intro n h h0
    omega
  | succ fuel ih =>
    intro n h h0
    by_cases h2 : 2 ≤ n
    · have e : log2Fuel (fuel + 1) n = log2Fuel fuel (n / 2) + 1 := by
        show (if 2 ≤ n then _ else _) = _
        rw [if_pos h2]
      obtain ⟨a, b⟩ := ih (n / 2) (by omega) (by omega)
      rw [e, pow_succ, pow_succ]
      rw [pow_succ] at b
      constructor <;> omega
    · have e : log2Fuel (fuel + 1) n = 0 := by
        show (if 2 ≤ n then _ else _) = _
        rw [if_neg h2]
      rw [e]
      constructor <;> omega

theorem ilog2_le {n : Nat} (h : n ≠ 0) : 2 ^ ilog2 n ≤ n := (log2Fuel_spec n n le_rfl h).1

theorem lt_ilog2 {n : Nat} (h : n ≠ 0) : n < 2 ^ (ilog2 n + 1) := (log2Fuel_spec n n le_rfl h).2

theorem abs_eq_natAbs_div (x : ℚ) : |x| = (x.num.natAbs : ℚ) / (x.den : ℚ) := by
  have h := Rat.num_div_den x
  have hd : (0 : ℚ) < x.den := by exact_mod_cast x.den_pos
  conv_lhs => rw [← h]
  rw [abs_div, abs_of_pos hd, Nat.cast_natAbs, Int.cast_abs]

theorem expOf_spec {x : ℚ} (hx : x ≠ 0) :
    (2 : ℚ) ^ expOf x ≤ |x| ∧ |x| < (2 : ℚ) ^ (expOf x + 1) := by
  have hn : x.num.natAbs ≠ 0 := by
    intro h
    apply hx
    have := Int.natAbs_eq_zero.mp h
    exact Rat.zero_of_num_zero this
  have hd : x.den ≠ 0 := x.den_nz
  have hdpos : (0 : ℚ) < x.den := by exact_mod_cast x.den_pos
  have a1 : ((2 : ℚ) ^ ilog2 x.num.natAbs) ≤ (x.num.natAbs : ℚ) := by
    exact_mod_cast ilog2_le hn
  have a2 : (x.num.natAbs : ℚ) < (2 : ℚ) ^ (ilog2 x.num.natAbs + 1) := by
    exact_mod_cast lt_ilog2 hn
  have b1 : ((2 : ℚ) ^ ilog2 x.den) ≤ (x.den : ℚ) := by
    exact_mod_cast ilog2_le hd
  have b2 : (x.den : ℚ) < (2 : ℚ) ^ (ilog2 x.den + 1) := by
    exact_mod_cast lt_ilog2 hd
  have habs := abs_eq_natAbs_div x
  have two : (2 : ℚ) ≠ 0 := by norm_num
  have lower : (2 : ℚ) ^ ((ilog2 x.num.natAbs : ℤ) - (ilog2 x.den : ℤ) - 1) ≤ |x| := by
    have e : (2 : ℚ) ^ ((ilog2 x.num.natAbs : ℤ) - (ilog2 x.den : ℤ) - 1) =
        (2 : ℚ) ^ ilog2 x.num.natAbs / (2 : ℚ) ^ (ilog2 x.den + 1) := by
      rw [show ((ilog2 x.num.natAbs : ℤ) - (ilog2 x.den : ℤ) - 1) =
        (ilog2 x.num.natAbs : ℤ) - ((ilog2 x.den + 1 : ℕ) : ℤ) by push_cast; ring]
      rw [zpow_sub₀ two, zpow_natCast, zpow_natCast]
    rw [e, habs]
    exact div_le_div₀ (by positivity) a1 hdpos b2.le
  have upper : |x| < (2 : ℚ) ^ ((ilog2 x.num.natAbs : ℤ) - (ilog2 x.den : ℤ) + 1) := by
    have e : (2 : ℚ) ^ ((ilog2 x.num.natAbs : ℤ) - (ilog2 x.den : ℤ) + 1) =
        (2 : ℚ) ^ (ilog2 x.num.natAbs + 1) / (2 : ℚ) ^ ilog2 x.den := by
      rw [show ((ilog2 x.num.natAbs : ℤ) - (ilog2 x.den : ℤ) + 1) =
        ((ilog2 x.num.natAbs + 1 : ℕ) : ℤ) - (ilog2 x.den : ℤ) by push_cast; ring]
      rw [zpow_sub₀ two, zpow_natCast, zpow_natCast]
    rw [e, habs]
    exact div_lt_div₀ a2 b1 (by positivity) (by positivity)
  unfold expOf
  split_ifs with h
  · exact ⟨h, upper⟩
  · refine ⟨lower, ?_⟩
    rw [sub_add_cancel]
    exact not_le.mp h

theorem roundEven_err (y : ℚ) : |(roundEven y : ℚ) - y| ≤ 1 / 2 := by
  have h1 := Int.floor_le y
  have h2 := Int.lt_floor_add_one y
  unfold roundEven
  rw [abs_le]
  split_ifs with a b c
  · constructor <;> linarith
  · push_cast
    constructor <;> linarith
  · constructor <;> linarith
  · push_cast
    constructor <;> linarith

theorem ulp_pos (x : ℚ) : 0 < ulp x := by
  unfold ulp
  positivity

theorem half_ulp_le {x : ℚ} (hx : x ≠ 0) : ulp x / 2 ≤ |x| / 2 ^ 24 + 1 / 2 ^ 150 := by
  have hs := (expOf_spec hx).1
  have habs : 0 ≤ |x| := abs_nonneg x
  have two : (2 : ℚ) ≠ 0 := by norm_num
  unfold ulp
  rcases le_total (expOf x) (-126) with h | h
  · rw [max_eq_right h]
    have e : (2 : ℚ) ^ ((-126 : ℤ) - 23) / 2 = 1 / 2 ^ 150 := by
      rw [show ((-126 : ℤ) - 23) = -149 by norm_num, zpow_neg]
      norm_num
    rw [e]
    have : 0 ≤ |x| / 2 ^ 24 := by positivity
    linarith
  · rw [max_eq_left h]
    have e : (2 : ℚ) ^ (expOf x - 23) / 2 = (2 : ℚ) ^ expOf x / 2 ^ 24 := by
      rw [zpow_sub₀ two]
      norm_num
      ring
    rw [e]
    have h3 : (2 : ℚ) ^ expOf x / 2 ^ 24 ≤ |x| / 2 ^ 24 :=
      div_le_div_of_nonneg_right hs (by positivity)
    have : (0 : ℚ) ≤ 1 / 2 ^ 150 := by positivity
    linarith

theorem nearest_err (x : ℚ) : |nearest x - x| ≤ |x| / 2 ^ 24 + 1 / 2 ^ 150 := by
  unfold nearest
  split_ifs with h
  · rw [h]
    norm_num
  · have hu := ulp_pos x
    have hr := roundEven_err (x / ulp x)
    have e : (roundEven (x / ulp x) : ℚ) * ulp x - x =
        ((roundEven (x / ulp x) : ℚ) - x / ulp x) * ulp x := by
      field_simp
    rw [e, abs_mul, abs_of_pos hu]
    have h1 : |(roundEven (x / ulp x) : ℚ) - x / ulp x| * ulp x ≤ 1 / 2 * ulp x :=
      mul_le_mul_of_nonneg_right hr hu.le
    have h2 := half_ulp_le h
    linarith


/-- A sum built by `k` rounded additions of the rounded step `c`, from zero. -/
theorem accumulate_err (c : ℚ) : ∀ k : Nat, (k : ℚ) ≤ 2 ^ 22 →
    |(fun a => nearest (a + nearest c))^[k] 0 - c * k| ≤
      3 * (k : ℚ) ^ 2 * |c| / 2 ^ 24 + (k : ℚ) / 2 ^ 148 := by
  intro k
  induction k with
  | zero =>
    intro _
    simp
  | succ k ih =>
    intro hk
    have hK : (0 : ℚ) ≤ (k : ℚ) := Nat.cast_nonneg k
    have hk1 : ((k : ℚ) + 1) ≤ 2 ^ 22 := by
      have := hk
      push_cast at this
      exact this
    have hD := ih (by linarith)
    rw [Function.iterate_succ_apply']
    generalize (fun a => nearest (a + nearest c))^[k] 0 = a at hD ⊢
    have hC : 0 ≤ |c| := abs_nonneg c
    have h1 := nearest_err c
    have h2 := nearest_err (a + nearest c)
    have h3 : |a + nearest c| ≤ |a - c * k| + |nearest c - c| + k * |c| + |c| := by
      have e : a + nearest c = (a - c * k) + (nearest c - c) + c * k + c := by ring
      have t1 := abs_add ((a - c * k) + (nearest c - c) + c * k) c
      have t2 := abs_add ((a - c * k) + (nearest c - c)) (c * k)
      have t3 := abs_add (a - c * k) (nearest c - c)
      have t4 : |c * (k : ℚ)| = k * |c| := by
        rw [abs_mul, abs_of_nonneg hK]
        ring
      rw [e]
      linarith
    have h4 : |nearest (a + nearest c) - c * ((k : ℚ) + 1)| ≤
        |nearest (a + nearest c) - (a + nearest c)| + |a - c * k| + |nearest c - c| := by
      have e : nearest (a + nearest c) - c * ((k : ℚ) + 1) =
          (nearest (a + nearest c) - (a + nearest c)) + (a - c * k) + (nearest c - c) := by ring
      have t1 := abs_add ((nearest (a + nearest c) - (a + nearest c)) + (a - c * k))
        (nearest c - c)
      have t2 := abs_add (nearest (a + nearest c) - (a + nearest c)) (a - c * k)
      rw [e]
      linarith
    have hY : 0 ≤ (k : ℚ) * |c| := mul_nonneg hK hC
    have hXY : (k : ℚ) ^ 2 * |c| / 2 ^ 24 ≤ (k : ℚ) * |c| / 4 := by
      have : (k : ℚ) / 2 ^ 24 ≤ 1 / 4 := by
        rw [div_le_iff₀ (by positivity)]
        linarith
      have := mul_le_mul_of_nonneg_right this hY
      calc (k : ℚ) ^ 2 * |c| / 2 ^ 24 = (k : ℚ) / 2 ^ 24 * ((k : ℚ) * |c|) := by ring
        _ ≤ 1 / 4 * ((k : ℚ) * |c|) := this
        _ = (k : ℚ) * |c| / 4 := by ring
    push_cast
    have expand : 3 * ((k : ℚ) + 1) ^ 2 * |c| / 2 ^ 24 + ((k : ℚ) + 1) / 2 ^ 148 =
        3 * ((k : ℚ) ^ 2 * |c| / 2 ^ 24) + 6 * ((k : ℚ) * |c|) / 2 ^ 24 + 3 * |c| / 2 ^ 24 +
          (k : ℚ) / 2 ^ 148 + 1 / 2 ^ 148 := by ring
    rw [expand]
    have hD' : |a - c * k| ≤ 3 * ((k : ℚ) ^ 2 * |c| / 2 ^ 24) + (k : ℚ) / 2 ^ 148 := by
      calc |a - c * k| ≤ 3 * (k : ℚ) ^ 2 * |c| / 2 ^ 24 + (k : ℚ) / 2 ^ 148 := hD
        _ = 3 * ((k : ℚ) ^ 2 * |c| / 2 ^ 24) + (k : ℚ) / 2 ^ 148 := by ring
    generalize (k : ℚ) ^ 2 * |c| / 2 ^ 24 = X at hXY hD' ⊢
    generalize (k : ℚ) * |c| = Y at hXY hY h3 ⊢
    generalize |a - c * k| = D at hD' h3 h4
    generalize |nearest c - c| = E1 at h1 h3 h4
    generalize |nearest (a + nearest c) - (a + nearest c)| = E2 at h2 h4
    generalize |a + nearest c| = S at h2 h3
    generalize |nearest (a + nearest c) - c * ((k : ℚ) + 1)| = R at h4 ⊢
    generalize |c| = C at hC h1 h3 ⊢
    generalize (k : ℚ) = K at hK hk1 hD' ⊢
    norm_num at *
    linarith


theorem GAIN_eq : GAIN = 16106127 / 16777216 := by decide!

theorem one_sub_GAIN_eq : nearest (1 - GAIN) = 671089 / 16777216 := by decide!

/-- The rounded blend stays within the rounding allowance of the interval. -/
theorem blend_err (g a : ℚ) :
    min g a - (3 * max |g| |a| / 2 ^ 24 + 1 / 2 ^ 148) ≤
      nearest (nearest (GAIN * g) + nearest (nearest (1 - GAIN) * a)) ∧
    nearest (nearest (GAIN * g) + nearest (nearest (1 - GAIN) * a)) ≤
      max g a + (3 * max |g| |a| / 2 ^ 24 + 1 / 2 ^ 148) := by
  rw [one_sub_GAIN_eq, GAIN_eq]
  have hgM : |g| ≤ max |g| |a| := le_max_left _ _
  have haM : |a| ≤ max |g| |a| := le_max_right _ _
  have e1 := nearest_err (16106127 / 16777216 * g)
  have e2 := nearest_err (671089 / 16777216 * a)
  have e3 := nearest_err (nearest (16106127 / 16777216 * g) + nearest (671089 / 16777216 * a))
  have m1 : |16106127 / 16777216 * g| = 16106127 / 16777216 * |g| := by
    rw [abs_mul, abs_of_pos (by norm_num : (0 : ℚ) < 16106127 / 16777216)]
  have m2 : |671089 / 16777216 * a| = 671089 / 16777216 * |a| := by
    rw [abs_mul, abs_of_pos (by norm_num : (0 : ℚ) < 671089 / 16777216)]
  rw [m1] at e1
  rw [m2] at e2
  have hs : |nearest (16106127 / 16777216 * g) + nearest (671089 / 16777216 * a)| ≤
      |nearest (16106127 / 16777216 * g) - 16106127 / 16777216 * g| +
      |nearest (671089 / 16777216 * a) - 671089 / 16777216 * a| +
      (16106127 / 16777216 * |g| + 671089 / 16777216 * |a|) := by
    have e : nearest (16106127 / 16777216 * g) + nearest (671089 / 16777216 * a) =
        (nearest (16106127 / 16777216 * g) - 16106127 / 16777216 * g) +
        (nearest (671089 / 16777216 * a) - 671089 / 16777216 * a) +
        (16106127 / 16777216 * g + 671089 / 16777216 * a) := by ring
    have t1 := abs_add ((nearest (16106127 / 16777216 * g) - 16106127 / 16777216 * g) +
        (nearest (671089 / 16777216 * a) - 671089 / 16777216 * a))
        (16106127 / 16777216 * g + 671089 / 16777216 * a)
    have t2 := abs_add (nearest (16106127 / 16777216 * g) - 16106127 / 16777216 * g)
        (nearest (671089 / 16777216 * a) - 671089 / 16777216 * a)
    have t3 := abs_add (16106127 / 16777216 * g) (671089 / 16777216 * a)
    rw [m1, m2] at t3
    rw [e]
    linarith
  have b1 := abs_le.mp (le_refl |nearest (16106127 / 16777216 * g) - 16106127 / 16777216 * g|)
  have b2 := abs_le.mp (le_refl |nearest (671089 / 16777216 * a) - 671089 / 16777216 * a|)
  have b3 := abs_le.mp (le_refl |nearest (nearest (16106127 / 16777216 * g) +
    nearest (671089 / 16777216 * a)) - (nearest (16106127 / 16777216 * g) +
    nearest (671089 / 16777216 * a))|)
  have hM0 : 0 ≤ max |g| |a| := le_trans (abs_nonneg g) hgM
  generalize nearest (nearest (16106127 / 16777216 * g) + nearest (671089 / 16777216 * a)) = r
    at e3 b3 ⊢
  generalize nearest (16106127 / 16777216 * g) = p at e1 e3 hs b1 b3
  generalize nearest (671089 / 16777216 * a) = q at e2 e3 hs b2 b3
  generalize max |g| |a| = M at hgM haM hM0 ⊢
  have ag := abs_nonneg g
  have aa := abs_nonneg a
  rcases le_total g a with h | h
  · rw [min_eq_left h, max_eq_right h]
    constructor <;> norm_num at * <;> linarith
  · rw [min_eq_right h, max_eq_left h]
    constructor <;> norm_num at * <;> linarith

/-- The binary32 value of 0.01. -/
theorem nearest_hundredth : nearest (1 / 100) = 5368709 / 536870912 := by decide!

/-- The rounded blend of the binary32 value `8826933 / 2 ^ 17` with itself. -/
theorem blend_tight :
    nearest (nearest (GAIN * (8826933 / 131072)) +
      nearest (nearest (1 - GAIN) * (8826933 / 131072))) = 8826933 / 131072 - 1 / 131072 := by
  decide!

/-- One hundred rounded additions of the rounded step `1.5 * 0.01`, from zero. -/
theorem accumulate_hundred :
    (fun a => nearest (a + nearest (3 / 2 * nearest (1 / 100))))^[100] 0 =
      6291451 / 4194304 := by
  decide!

end Binary32

/-! ### The claims -/

/-- C1: after `complementaryFilterFIR` the published roll is
`GAIN * gyroAngleX + (1 - GAIN) * accAngleX`, the published pitch is
`GAIN * gyroAngleY + (1 - GAIN) * accAngleY`, and `GAIN` is 0.96. -/
theorem complementaryFilterFIR_blend (s : MPU6050) :
    (MPU6050.complementaryFilterFIR s).roll = GAIN * s.gyroAngleX + (1 - GAIN) * s.accAngleX ∧
    (MPU6050.complementaryFilterFIR s).pitch = GAIN * s.gyroAngleY + (1 - GAIN) * s.accAngleY ∧
    GAIN = 0.96 := by
  refine ⟨rfl, rfl, ?_⟩
  unfold GAIN
  norm_num

/-- In exact arithmetic the blend is a convex combination: roll lies between
`gyroAngleX` and `accAngleX`, pitch between `gyroAngleY` and `accAngleY`, ends
included. The rounded blend is `Binary32.complementaryFilterFIR`. -/
theorem complementaryFilterFIR_convex (s : MPU6050) :
    min s.gyroAngleX s.accAngleX ≤ (MPU6050.complementaryFilterFIR s).roll ∧
    (MPU6050.complementaryFilterFIR s).roll ≤ max s.gyroAngleX s.accAngleX ∧
    min s.gyroAngleY s.accAngleY ≤ (MPU6050.complementaryFilterFIR s).pitch ∧
    (MPU6050.complementaryFilterFIR s).pitch ≤ max s.gyroAngleY s.accAngleY := by
  have hg : GAIN = 24 / 25 := by norm_num [GAIN]
  simp only [MPU6050.complementaryFilterFIR, hg]
  refine ⟨?_, ?_, ?_, ?_⟩
  · rcases le_total s.gyroAngleX s.accAngleX with h | h
    · rw [min_eq_left h]; linarith
    · rw [min_eq_right h]; linarith
  · rcases le_total s.gyroAngleX s.accAngleX with h | h
    · rw [max_eq_right h]; linarith
    · rw [max_eq_left h]; linarith
  · rcases le_total s.gyroAngleY s.accAngleY with h | h
    · rw [min_eq_left h]; linarith
    · rw [min_eq_right h]; linarith
  · rcases le_total s.gyroAngleY s.accAngleY with h | h
    · rw [max_eq_right h]; linarith
    · rw [max_eq_left h]; linarith

/-- C3: when the device answers the two reads of `readSensor` with the bytes
`a0 … a5` and `g0 … g5`, every stored scaled value is the spec's
`(hi<<8 | lo)` as a big-endian signed 16-bit integer times the scale factor
(1/16384 or 1/131) plus the offset of the axis: none on the accelerometer
axes, the literals `1.58`, `-0.47`, `0.60` on the gyroscope axes. -/
theorem readSensor_scale (m : MathLib) (millis : Nat) (s : MPU6050) (w : TwoWire)
    (a0 a1 a2 a3 a4 a5 g0 g1 g2 g3 g4 g5 : Nat)
    (hb : ∀ b ∈ [a0, a1, a2, a3, a4, a5, g0, g1, g2, g3, g4, g5], b < 256)
    (hA : w.device w.txn 0x3B 6 = [a0, a1, a2, a3, a4, a5])
    (hG : w.device (w.txn + 1) 0x43 6 = [g0, g1, g2, g3, g4, g5]) :
    (MPU6050.readSensor m millis s w).1.AccX = scaleSpec (int16BE a0 a1) (1 / 16384) 0 ∧
    (MPU6050.readSensor m millis s w).1.AccY = scaleSpec (int16BE a2 a3) (1 / 16384) 0 ∧
    (MPU6050.readSensor m millis s w).1.AccZ = scaleSpec (int16BE a4 a5) (1 / 16384) 0 ∧
    (MPU6050.readSensor m millis s w).1.GyroX = scaleSpec (int16BE g0 g1) (1 / 131) 1.58 ∧
    (MPU6050.readSensor m millis s w).1.GyroY = scaleSpec (int16BE g2 g3) (1 / 131) (-0.47) ∧
    (MPU6050.readSensor m millis s w).1.GyroZ = scaleSpec (int16BE g4 g5) (1 / 131) 0.60 ∧
    (∀ hi lo : Nat, hi < 256 → lo < 256 → -32768 ≤ int16BE hi lo ∧ int16BE hi lo ≤ 32767) := by
  simp only [List.mem_cons, List.mem_singleton, List.not_mem_nil, or_false, forall_eq_or_imp,
    forall_eq] at hb
  obtain ⟨h0, h1, h2, h3, h4, h5, k0, k1, k2, k3, k4, k5⟩ := hb
  obtain ⟨x1, x2, x3, y1, y2, y3⟩ := readSensor_words m millis s w a0 a1 a2 a3 a4 a5
    g0 g1 g2 g3 g4 g5 h0 h1 h2 h3 h4 h5 k0 k1 k2 k3 k4 k5 hA hG
  rw [x1, x2, x3, y1, y2, y3]
  simp only [scaleSpec]
  refine ⟨by ring, by ring, by ring, by ring, by ring, by ring, ?_⟩
  intro hi lo hhi hlo
  exact int16BE_range hhi hlo

/-- C3, at the level sample with the gyroscope turning at raw `(-131, 131, 0)`. -/
theorem readSensor_scale_witness :
    (MPU6050.readSensor stubMath 10 (MPU6050.construct 0x68)
        (constBus levelAcc spinGyro)).1.AccZ = scaleSpec (int16BE 0x40 0) (1 / 16384) 0 ∧
    (MPU6050.readSensor stubMath 10 (MPU6050.construct 0x68)
        (constBus levelAcc spinGyro)).1.GyroX = scaleSpec (int16BE 0xFF 0x7D) (1 / 131) 1.58 ∧
    int16BE 0xFF 0x7D = -131 :=
  have h := readSensor_scale stubMath 10 (MPU6050.construct 0x68) (constBus levelAcc spinGyro)
    0 0 0 0 0x40 0 0xFF 0x7D 0x00 0x83 0 0 (by decide) rfl rfl
  ⟨h.2.2.1, h.2.2.2.1, by decide⟩

/-- C4 as written fails: on the level sample both denominators are non-zero, and
`readSensor` hands over tilt angles that differ from the bare formula. -/
theorem readSensor_tilt_bare_fails :
    stubMath.sqrt
      ((MPU6050.readSensor stubMath 10 (MPU6050.construct 0x68)
          (constBus levelAcc restGyro)).1.AccX ^ 2 +
       (MPU6050.readSensor stubMath 10 (MPU6050.construct 0x68)
          (constBus levelAcc restGyro)).1.AccZ ^ 2) ≠ 0 ∧
    stubMath.sqrt
      ((MPU6050.readSensor stubMath 10 (MPU6050.construct 0x68)
          (constBus levelAcc restGyro)).1.AccY ^ 2 +
       (MPU6050.readSensor stubMath 10 (MPU6050.construct 0x68)
          (constBus levelAcc restGyro)).1.AccZ ^ 2) ≠ 0 ∧
    (MPU6050.readSensor stubMath 10 (MPU6050.construct 0x68)
        (constBus levelAcc restGyro)).1.accAngleX ≠ tiltX stubMath 0 0 1 ∧
    (MPU6050.readSensor stubMath 10 (MPU6050.construct 0x68)
        (constBus levelAcc restGyro)).1.accAngleY ≠ tiltY stubMath 0 0 1 ∧
    (MPU6050.readSensor stubMath 10 (MPU6050.construct 0x68)
        (constBus levelAcc restGyro)).1.AccX = 0 ∧
    (MPU6050.readSensor stubMath 10 (MPU6050.construct 0x68)
        (constBus levelAcc restGyro)).1.AccY = 0 ∧
    (MPU6050.readSensor stubMath 10 (MPU6050.construct 0x68)
        (constBus levelAcc restGyro)).1.AccZ = 1 := by
  obtain ⟨x, y, z, -⟩ := readSensor_level stubMath 10 (MPU6050.construct 0x68)
  obtain ⟨hX, hY⟩ := readSensor_accAngle stubMath 10 (MPU6050.construct 0x68)
    (constBus levelAcc restGyro)
  rw [hX, hY, x, y, z]
  norm_num [stubMath, tiltX, tiltY]


/-- C4, amended: with non-zero denominators `readSensor` hands the estimator the
tilt formula in degrees with a fixed correction, `accAngleX = tiltX - 0.58` and
`accAngleY = tiltY + 1.58`, while each calibration pass adds the bare formula
`tiltX`, `tiltY` of its sample to the error sums. -/
theorem readSensor_tilt_corrected (m : MathLib) (millis : Nat) (s : MPU6050) (w : TwoWire)
    (g : Globals) (wc : TwoWire)
    (hx : m.sqrt ((MPU6050.readSensor m millis s w).1.AccX ^ 2 +
      (MPU6050.readSensor m millis s w).1.AccZ ^ 2) ≠ 0)
    (hy : m.sqrt ((MPU6050.readSensor m millis s w).1.AccY ^ 2 +
      (MPU6050.readSensor m millis s w).1.AccZ ^ 2) ≠ 0) :
    (MPU6050.readSensor m millis s w).1.accAngleX =
      tiltX m (MPU6050.readSensor m millis s w).1.AccX (MPU6050.readSensor m millis s w).1.AccY
        (MPU6050.readSensor m millis s w).1.AccZ - 0.58 ∧
    (MPU6050.readSensor m millis s w).1.accAngleY =
      tiltY m (MPU6050.readSensor m millis s w).1.AccX (MPU6050.readSensor m millis s w).1.AccY
        (MPU6050.readSensor m millis s w).1.AccZ + 1.58 ∧
    (accStep m g wc).1.AccErrorX = g.AccErrorX +
      tiltX m (accStep m g wc).1.AccX (accStep m g wc).1.AccY (accStep m g wc).1.AccZ ∧
    (accStep m g wc).1.AccErrorY = g.AccErrorY +
      tiltY m (accStep m g wc).1.AccX (accStep m g wc).1.AccY (accStep m g wc).1.AccZ := by
  have _hx := hx
  have _hy := hy
  obtain ⟨a, b⟩ := readSensor_accAngle m millis s w
  refine ⟨a, b, rfl, ?_⟩
  show g.AccErrorY + m.atan (-1 * (accStep m g wc).1.AccX / _) * 180 / m.PI = _
  rw [neg_one_mul]
  rfl

/-- C4, amended, at the level sample: both denominators are 1 there. -/
theorem readSensor_tilt_corrected_witness :
    (MPU6050.readSensor stubMath 10 (MPU6050.construct 0x68)
        (constBus levelAcc restGyro)).1.accAngleX =
      tiltX stubMath
        (MPU6050.readSensor stubMath 10 (MPU6050.construct 0x68) (constBus levelAcc restGyro)).1.AccX
        (MPU6050.readSensor stubMath 10 (MPU6050.construct 0x68) (constBus levelAcc restGyro)).1.AccY
        (MPU6050.readSensor stubMath 10 (MPU6050.construct 0x68) (constBus levelAcc restGyro)).1.AccZ
        - 0.58 :=
  (readSensor_tilt_corrected stubMath 10 (MPU6050.construct 0x68) (constBus levelAcc restGyro)
    (Globals.fresh 0x68) (constBus levelAcc restGyro)
    (by
      obtain ⟨x, -, z, -⟩ := readSensor_level stubMath 10 (MPU6050.construct 0x68)
      rw [x, z]
      norm_num [stubMath])
    (by
      obtain ⟨-, y, z, -⟩ := readSensor_level stubMath 10 (MPU6050.construct 0x68)
      rw [y, z]
      norm_num [stubMath])).1

/-- In exact arithmetic, from zero accumulators, `N` calls of `calculateAngles`
with the rate held at `r` on every axis and `elapsedTime` held at `dt` leave
`r * dt * N` in `gyroAngleX`, in `gyroAngleY` and in `yaw`. The rounded
integrator is `Binary32.calculateAngles`. -/
theorem calculateAngles_linear (r dt : ℚ) (N : Nat) (s : MPU6050)
    (hX : s.GyroX = r) (hY : s.GyroY = r) (hZ : s.GyroZ = r) (hdt : s.elapsedTime = dt)
    (h0 : s.gyroAngleX = 0) (h1 : s.gyroAngleY = 0) (h2 : s.yaw = 0) :
    (MPU6050.calculateAngles^[N] s).gyroAngleX = r * dt * N ∧
    (MPU6050.calculateAngles^[N] s).gyroAngleY = r * dt * N ∧
    (MPU6050.calculateAngles^[N] s).yaw = r * dt * N := by
  obtain ⟨a, b, c, -⟩ := calculateAngles_iterate N s
  rw [a, b, c, hX, hY, hZ, hdt, h0, h1, h2]
  simp

/-- C6 as written fails: a clock reading below the stored timestamp gives a
negative `elapsedTime`, and `calculateAngles` then moves all three accumulators. -/
theorem calculateAngles_negative_dt_integrates :
    (MPU6050.readSensor stubMath 0 lateState (constBus levelAcc restGyro)).1.elapsedTime < 0 ∧
    (MPU6050.calculateAngles
      (MPU6050.readSensor stubMath 0 lateState (constBus levelAcc restGyro)).1).gyroAngleX ≠
      (MPU6050.readSensor stubMath 0 lateState (constBus levelAcc restGyro)).1.gyroAngleX ∧
    (MPU6050.calculateAngles
      (MPU6050.readSensor stubMath 0 lateState (constBus levelAcc restGyro)).1).gyroAngleY ≠
      (MPU6050.readSensor stubMath 0 lateState (constBus levelAcc restGyro)).1.gyroAngleY ∧
    (MPU6050.calculateAngles
      (MPU6050.readSensor stubMath 0 lateState (constBus levelAcc restGyro)).1).yaw ≠
      (MPU6050.readSensor stubMath 0 lateState (constBus levelAcc restGyro)).1.yaw := by
  obtain ⟨-, -, -, gx, gy, gz⟩ := readSensor_level stubMath 0 lateState
  obtain ⟨-, -, dt⟩ := readSensor_time stubMath 0 lateState (constBus levelAcc restGyro)
  have hdt : (MPU6050.readSensor stubMath 0 lateState
      (constBus levelAcc restGyro)).1.elapsedTime = -1 := by
    rw [dt]
    norm_num [lateState]
  simp only [MPU6050.calculateAngles, hdt, gx, gy, gz]
  norm_num

/-- C6, amended: `calculateAngles` has no skip: it always adds rate times
`elapsedTime` to `gyroAngleX`, `gyroAngleY` and `yaw`; when `elapsedTime` is
zero that leaves the three accumulators as they were. -/
theorem calculateAngles_step (s : MPU6050) :
    (MPU6050.calculateAngles s).gyroAngleX = s.gyroAngleX + s.GyroX * s.elapsedTime ∧
    (MPU6050.calculateAngles s).gyroAngleY = s.gyroAngleY + s.GyroY * s.elapsedTime ∧
    (MPU6050.calculateAngles s).yaw = s.yaw + s.GyroZ * s.elapsedTime ∧
    (s.elapsedTime = 0 →
      (MPU6050.calculateAngles s).gyroAngleX = s.gyroAngleX ∧
      (MPU6050.calculateAngles s).gyroAngleY = s.gyroAngleY ∧
      (MPU6050.calculateAngles s).yaw = s.yaw) := by
  refine ⟨rfl, rfl, rfl, ?_⟩
  intro h
  simp [MPU6050.calculateAngles, h]

/-- C6, amended, at a state with rates 5, 6, 7 and `elapsedTime = 0`. -/
theorem calculateAngles_step_witness :
    (MPU6050.calculateAngles
      { MPU6050.construct 0x68 with GyroX := 5, GyroY := 6, GyroZ := 7, yaw := 2 }).yaw = 2 :=
  ((calculateAngles_step
    { MPU6050.construct 0x68 with GyroX := 5, GyroY := 6, GyroZ := 7, yaw := 2 }).2.2.2 rfl).2.2

/-- C8: two ticks that start with the same yaw and the same stored timestamp and
receive the same gyroscope block and the same clock reading end with the same
yaw, whatever the two accelerometer blocks are; that yaw is the previous yaw
plus `GyroZ * elapsedTime`, and `complementaryFilterFIR` does not touch yaw. -/
theorem tick_yaw_ignores_accelerometer (m : MathLib) (millis : Nat) (s1 s2 : MPU6050)
    (w1 w2 : TwoWire) (hyaw : s1.yaw = s2.yaw) (htime : s1.currentTime = s2.currentTime)
    (hgyro : w1.device (w1.txn + 1) 0x43 6 = w2.device (w2.txn + 1) 0x43 6) :
    (tick m millis s1 w1).1.yaw = (tick m millis s2 w2).1.yaw ∧
    (tick m millis s1 w1).1.yaw = s1.yaw +
      (MPU6050.readSensor m millis s1 w1).1.GyroZ *
        (MPU6050.readSensor m millis s1 w1).1.elapsedTime ∧
    (∀ s : MPU6050, (MPU6050.complementaryFilterFIR s).yaw = s.yaw) := by
  have hrx : (afterRequest (afterWords (afterRequest w1 s1.MPU_ADDRESS 0x3B))
      s1.MPU_ADDRESS 0x43).rx =
      (afterRequest (afterWords (afterRequest w2 s2.MPU_ADDRESS 0x3B)) s2.MPU_ADDRESS 0x43).rx := by
    rw [readSensor_gyro_rx, readSensor_gyro_rx, hgyro]
  have hz : (MPU6050.readSensor m millis s1 w1).1.GyroZ =
      (MPU6050.readSensor m millis s2 w2).1.GyroZ := by
    rw [readSensor_GyroZ, readSensor_GyroZ, thirdWord_congr _ _ hrx]
  have hdt : (MPU6050.readSensor m millis s1 w1).1.elapsedTime =
      (MPU6050.readSensor m millis s2 w2).1.elapsedTime := by
    rw [(readSensor_time m millis s1 w1).2.2, (readSensor_time m millis s2 w2).2.2, htime]
  refine ⟨?_, tick_yaw m millis s1 w1, fun _ => rfl⟩
  rw [tick_yaw, tick_yaw, hz, hdt, hyaw]

/-- C8, for the level accelerometer block against an accelerometer block that
breaks off after three bytes, the gyroscope turning in both runs. -/
theorem tick_yaw_ignores_accelerometer_witness :
    (tick stubMath 10 (MPU6050.construct 0x68) (constBus levelAcc spinGyro)).1.yaw =
      (tick stubMath 10 (MPU6050.construct 0x68) (constBus [0, 0, 0] spinGyro)).1.yaw :=
  (tick_yaw_ignores_accelerometer stubMath 10 (MPU6050.construct 0x68) (MPU6050.construct 0x68)
    (constBus levelAcc spinGyro) (constBus [0, 0, 0] spinGyro) rfl rfl rfl).1

/-- C9 as written fails: on a bus whose accelerometer read returns three of the
six bytes, `readSensor` returns all the same: the stored timestamp has moved
from 0 to the clock reading 1000, and the missing bytes were read as `-1`,
which leaves `-1 / 16384` in `AccZ`. -/
theorem readSensor_short_read_moves_timestamp :
    (shortBus.device shortBus.txn 0x3B 6).length < 6 ∧
    (MPU6050.construct 0x68).currentTime = 0 ∧
    (MPU6050.readSensor stubMath 1000 (MPU6050.construct 0x68) shortBus).1.currentTime = 1000 ∧
    (MPU6050.readSensor stubMath 1000 (MPU6050.construct 0x68) shortBus).1.currentTime ≠
      (MPU6050.construct 0x68).currentTime ∧
    (MPU6050.readSensor stubMath 1000 (MPU6050.construct 0x68) shortBus).1.AccZ = -1 / 16384 := by
  refine ⟨by decide, rfl, ?_, ?_, ?_⟩
  · rw [(readSensor_time stubMath 1000 (MPU6050.construct 0x68) shortBus).2.1]
    norm_num
  · rw [(readSensor_time stubMath 1000 (MPU6050.construct 0x68) shortBus).2.1]
    norm_num [MPU6050.construct]
  · have hw : (afterRequest shortBus (MPU6050.construct 0x68).MPU_ADDRESS
        0x3B).readWord.2.readWord.2.readWord.1 = 65535 := by decide
    rw [readSensor_AccZ, hw]
    norm_num [toFloat, toSigned, wrapInt, INT_BITS]

/-- C9, amended: `readSensor` has no failure path; whatever the two bus reads
return, short or not, it returns with `gyroAngleX`, `gyroAngleY` and `yaw` as
they were, and with the timestamp advanced: `previousTime` is the old
`currentTime` and `currentTime` is the clock reading. -/
theorem readSensor_keeps_accumulators (m : MathLib) (millis : Nat) (s : MPU6050) (w : TwoWire) :
    (MPU6050.readSensor m millis s w).1.gyroAngleX = s.gyroAngleX ∧
    (MPU6050.readSensor m millis s w).1.gyroAngleY = s.gyroAngleY ∧
    (MPU6050.readSensor m millis s w).1.yaw = s.yaw ∧
    (MPU6050.readSensor m millis s w).1.previousTime = s.currentTime ∧
    (MPU6050.readSensor m millis s w).1.currentTime = (millis : ℚ) :=
  ⟨rfl, rfl, rfl, rfl, rfl⟩

/-- C10 as written fails: with the five stored error members raised from 0 to 1
the corrected rates and tilt angles `readSensor` stores are the same as before,
not larger by 1. -/
theorem readSensor_stored_offsets_unused :
    (MPU6050.readSensor stubMath 10 offsetState (constBus levelAcc restGyro)).1.accAngleX ≠
      (MPU6050.readSensor stubMath 10 (MPU6050.construct 0x68)
        (constBus levelAcc restGyro)).1.accAngleX + 1 ∧
    (MPU6050.readSensor stubMath 10 offsetState (constBus levelAcc restGyro)).1.GyroX ≠
      (MPU6050.readSensor stubMath 10 (MPU6050.construct 0x68)
        (constBus levelAcc restGyro)).1.GyroX + 1 ∧
    offsetState.AccErrorX = (MPU6050.construct 0x68).AccErrorX + 1 ∧
    offsetState.GyroErrorX = (MPU6050.construct 0x68).GyroErrorX + 1 := by
  have e1 : (MPU6050.readSensor stubMath 10 offsetState (constBus levelAcc restGyro)).1.accAngleX =
      (MPU6050.readSensor stubMath 10 (MPU6050.construct 0x68)
        (constBus levelAcc restGyro)).1.accAngleX := rfl
  have e2 : (MPU6050.readSensor stubMath 10 offsetState (constBus levelAcc restGyro)).1.GyroX =
      (MPU6050.readSensor stubMath 10 (MPU6050.construct 0x68)
        (constBus levelAcc restGyro)).1.GyroX := rfl
  refine ⟨?_, ?_, ?_, ?_⟩
  · rw [e1]
    intro h
    linarith
  · rw [e2]
    intro h
    linarith
  · norm_num [offsetState, MPU6050.construct]
  · norm_num [offsetState, MPU6050.construct]

/-- C10, amended: the offsets `readSensor` applies are the literals of its text,
`- 0.58` and `+ 1.58` on the tilt angles and `+ 1.58`, `- 0.47`, `+ 0.60` on the
rates word/131; the stored members `AccErrorX`, `AccErrorY`, `GyroErrorX`,
`GyroErrorY`, `GyroErrorZ` are not read, so no value given to them changes any
of the five outputs. -/
theorem readSensor_fixed_offsets (m : MathLib) (millis : Nat) (s : MPU6050) (w : TwoWire)
    (e1 e2 e3 e4 e5 : ℚ) :
    (MPU6050.readSensor m millis
      { s with AccErrorX := e1, AccErrorY := e2, GyroErrorX := e3, GyroErrorY := e4,
               GyroErrorZ := e5 } w).1.accAngleX = (MPU6050.readSensor m millis s w).1.accAngleX ∧
    (MPU6050.readSensor m millis
      { s with AccErrorX := e1, AccErrorY := e2, GyroErrorX := e3, GyroErrorY := e4,
               GyroErrorZ := e5 } w).1.accAngleY = (MPU6050.readSensor m millis s w).1.accAngleY ∧
    (MPU6050.readSensor m millis
      { s with AccErrorX := e1, AccErrorY := e2, GyroErrorX := e3, GyroErrorY := e4,
               GyroErrorZ := e5 } w).1.GyroX = (MPU6050.readSensor m millis s w).1.GyroX ∧
    (MPU6050.readSensor m millis
      { s with AccErrorX := e1, AccErrorY := e2, GyroErrorX := e3, GyroErrorY := e4,
               GyroErrorZ := e5 } w).1.GyroY = (MPU6050.readSensor m millis s w).1.GyroY ∧
    (MPU6050.readSensor m millis
      { s with AccErrorX := e1, AccErrorY := e2, GyroErrorX := e3, GyroErrorY := e4,
               GyroErrorZ := e5 } w).1.GyroZ = (MPU6050.readSensor m millis s w).1.GyroZ ∧
    (MPU6050.readSensor m millis s w).1.accAngleX =
      tiltX m (MPU6050.readSensor m millis s w).1.AccX (MPU6050.readSensor m millis s w).1.AccY
        (MPU6050.readSensor m millis s w).1.AccZ - 0.58 ∧
    (MPU6050.readSensor m millis s w).1.accAngleY =
      tiltY m (MPU6050.readSensor m millis s w).1.AccX (MPU6050.readSensor m millis s w).1.AccY
        (MPU6050.readSensor m millis s w).1.AccZ + 1.58 ∧
    (MPU6050.readSensor m millis s w).1.GyroX =
      toFloat (afterRequest (afterWords (afterRequest w s.MPU_ADDRESS 0x3B))
        s.MPU_ADDRESS 0x43).readWord.1 / 131 + 1.58 ∧
    (MPU6050.readSensor m millis s w).1.GyroY =
      toFloat (afterRequest (afterWords (afterRequest w s.MPU_ADDRESS 0x3B))
        s.MPU_ADDRESS 0x43).readWord.2.readWord.1 / 131 - 0.47 ∧
    (MPU6050.readSensor m millis s w).1.GyroZ =
      toFloat (afterRequest (afterWords (afterRequest w s.MPU_ADDRESS 0x3B))
        s.MPU_ADDRESS 0x43).readWord.2.readWord.2.readWord.1 / 131 + 0.60 := by
  obtain ⟨a, b⟩ := readSensor_accAngle m millis s w
  refine ⟨rfl, rfl, rfl, rfl, rfl, a, b, ?_, ?_, ?_⟩
  · rw [readSensor_GyroX]
    norm_num
  · rw [readSensor_GyroY]
    norm_num
  · rw [readSensor_GyroZ]
    norm_num

/-- C11: when the clock reading is at least the stored timestamp, `readSensor`
moves the old `currentTime` into `previousTime`, stores the clock reading in
`currentTime`, and the `elapsedTime` it stores,
`(currentTime - previousTime) / 1000`, is not negative. -/
theorem readSensor_elapsed_nonneg (m : MathLib) (millis : Nat) (s : MPU6050) (w : TwoWire)
    (hclock : s.currentTime ≤ (millis : ℚ)) :
    (MPU6050.readSensor m millis s w).1.previousTime = s.currentTime ∧
    (MPU6050.readSensor m millis s w).1.currentTime = (millis : ℚ) ∧
    (MPU6050.readSensor m millis s w).1.elapsedTime =
      ((MPU6050.readSensor m millis s w).1.currentTime -
        (MPU6050.readSensor m millis s w).1.previousTime) / 1000 ∧
    0 ≤ (MPU6050.readSensor m millis s w).1.elapsedTime := by
  obtain ⟨hp, hcur, hdt⟩ := readSensor_time m millis s w
  refine ⟨hp, hcur, ?_, ?_⟩
  · rw [hdt, hcur, hp]
  · rw [hdt]
    apply div_nonneg
    · linarith
    · norm_num

/-- C11, for a tick at clock reading 1010 ms after one observed at 1000 ms. -/
theorem readSensor_elapsed_nonneg_witness :
    (MPU6050.readSensor stubMath 1010 lateState (constBus levelAcc restGyro)).1.previousTime =
      lateState.currentTime ∧
    0 ≤ (MPU6050.readSensor stubMath 1010 lateState (constBus levelAcc restGyro)).1.elapsedTime :=
  have h := readSensor_elapsed_nonneg stubMath 1010 lateState (constBus levelAcc restGyro)
    (by norm_num [lateState])
  ⟨h.1, h.2.2.2⟩

/-- C13 as written fails: on a bus that answers every read with the same
sample, the first run from fresh globals returns `GyroErrorX = -1` after 400
reads and leaves the counter at 200; the second run, started on what the first
left, makes 200 reads only (no accelerometer read) and returns
`GyroErrorX = -201/200`. -/
theorem calculate_IMU_error_second_run_differs :
    firstRun.1.GyroErrorX = -1 ∧
    secondRun.1.GyroErrorX = -201 / 200 ∧
    secondRun.1.GyroErrorX ≠ firstRun.1.GyroErrorX ∧
    firstRun.1.c = 200 ∧
    firstRun.2.txn = 400 ∧
    secondRun.2.txn = 600 := by
  obtain ⟨-, -, f3, -, -, f6, f7, f8⟩ := calculate_IMU_error_gyro stubMath (Globals.fresh 0x68)
    (constBus levelAcc spinGyro)
  obtain ⟨-, -, m3, -, -, m6, m7⟩ := midState_fresh stubMath (Globals.fresh 0x68)
    (constBus levelAcc spinGyro) rfl
  rw [m3, m6, m7, sumTo_const _ _ _ (-1) gyroRateX_spin] at f3
  rw [m6] at f7
  rw [m7] at f8
  have h1 : firstRun.1.GyroErrorX = -1 := by
    show (calculate_IMU_error stubMath (Globals.fresh 0x68)
      (constBus levelAcc spinGyro)).1.GyroErrorX = -1
    rw [f3]
    norm_num [Globals.fresh]
  have hc : firstRun.1.c = 200 := f6
  have ht : firstRun.2.txn = 400 := by
    show (calculate_IMU_error stubMath (Globals.fresh 0x68) (constBus levelAcc spinGyro)).2.txn = _
    rw [f7]
    rfl
  have hd : firstRun.2.device = (constBus levelAcc spinGyro).device := f8
  have hskip : ¬ toSigned firstRun.1.c < 200 := by
    rw [hc, toSigned_small (by norm_num)]
    norm_num
  obtain ⟨-, -, g3, -, -, -, g7, -⟩ := calculate_IMU_error_gyro stubMath firstRun.1 firstRun.2
  obtain ⟨-, -, s3, -, -, s6⟩ := midState_skip stubMath firstRun.1 firstRun.2 hskip
  rw [s3, s6, hd, ht, h1, sumTo_const _ _ _ (-1) gyroRateX_spin] at g3
  rw [s6, ht] at g7
  have h2 : secondRun.1.GyroErrorX = -201 / 200 := by
    show (calculate_IMU_error stubMath firstRun.1 firstRun.2).1.GyroErrorX = _
    rw [g3]
    norm_num
  refine ⟨h1, h2, ?_, hc, ht, g7⟩
  rw [h1, h2]
  norm_num

/-- C13, amended: `calculate_IMU_error` resets none of the five error sums.
Started with the counter at zero it makes exactly 200 accelerometer reads and
then 200 gyroscope reads, and each result is the value its sum started with
plus the 200 per-sample values, over 200 (the average of the samples when the
sum started at zero); it leaves the counter at 200. -/
theorem calculate_IMU_error_sums (m : MathLib) (g : Globals) (w : TwoWire) (hc : g.c = 0) :
    (calculate_IMU_error m g w).1.AccErrorX =
      (g.AccErrorX + sumTo (accTiltX m w.device) w.txn 200) / 200 ∧
    (calculate_IMU_error m g w).1.AccErrorY =
      (g.AccErrorY + sumTo (accTiltY m w.device) w.txn 200) / 200 ∧
    (calculate_IMU_error m g w).1.GyroErrorX =
      (g.GyroErrorX + sumTo (gyroRateX w.device) (w.txn + 200) 200) / 200 ∧
    (calculate_IMU_error m g w).1.GyroErrorY =
      (g.GyroErrorY + sumTo (gyroRateY w.device) (w.txn + 200) 200) / 200 ∧
    (calculate_IMU_error m g w).1.GyroErrorZ =
      (g.GyroErrorZ + sumTo (gyroRateZ w.device) (w.txn + 200) 200) / 200 ∧
    (calculate_IMU_error m g w).2.txn = w.txn + 400 ∧
    (calculate_IMU_error m g w).1.c = 200 := by
  obtain ⟨f1, f2, f3, f4, f5, f6, f7, -⟩ := calculate_IMU_error_gyro m g w
  obtain ⟨m1, m2, m3, m4, m5, m6, m7⟩ := midState_fresh m g w hc
  rw [f1, f2, f3, f4, f5, f7, m1, m2, m3, m4, m5, m6, m7]
  exact ⟨rfl, rfl, rfl, rfl, rfl, rfl, f6⟩

/-- C13, amended, for globals whose `GyroErrorX` starts at 1 and a counter at zero. -/
theorem calculate_IMU_error_sums_witness :
    (calculate_IMU_error stubMath { Globals.fresh 0x68 with GyroErrorX := 1 }
      (constBus levelAcc spinGyro)).1.GyroErrorX =
      (1 + sumTo (gyroRateX (constBus levelAcc spinGyro).device)
        ((constBus levelAcc spinGyro).txn + 200) 200) / 200 ∧
    (calculate_IMU_error stubMath { Globals.fresh 0x68 with GyroErrorX := 1 }
      (constBus levelAcc spinGyro)).2.txn = (constBus levelAcc spinGyro).txn + 400 :=
  have h := calculate_IMU_error_sums stubMath { Globals.fresh 0x68 with GyroErrorX := 1 }
    (constBus levelAcc spinGyro) rfl
  ⟨h.2.2.1, h.2.2.2.2.2.1⟩

/-- The rounded integrator keeps the rates and `elapsedTime`, and each
accumulator is the rounded sum `nearest (a + nearest (rate * elapsedTime))`
applied `k` times. -/
theorem calculateAngles_rounded_iterate (k : Nat) (s : MPU6050) :
    (Binary32.calculateAngles^[k] s).gyroAngleX =
      (fun a => Binary32.nearest (a + Binary32.nearest (s.GyroX * s.elapsedTime)))^[k]
        s.gyroAngleX ∧
    (Binary32.calculateAngles^[k] s).gyroAngleY =
      (fun a => Binary32.nearest (a + Binary32.nearest (s.GyroY * s.elapsedTime)))^[k]
        s.gyroAngleY ∧
    (Binary32.calculateAngles^[k] s).yaw =
      (fun a => Binary32.nearest (a + Binary32.nearest (s.GyroZ * s.elapsedTime)))^[k] s.yaw ∧
    (Binary32.calculateAngles^[k] s).GyroX = s.GyroX ∧
    (Binary32.calculateAngles^[k] s).GyroY = s.GyroY ∧
    (Binary32.calculateAngles^[k] s).GyroZ = s.GyroZ ∧
    (Binary32.calculateAngles^[k] s).elapsedTime = s.elapsedTime := by
  induction k with
  | zero => exact ⟨rfl, rfl, rfl, rfl, rfl, rfl, rfl⟩
  | succ k ih =>
    obtain ⟨a, b, c, d, e, f, g⟩ := ih
    rw [Function.iterate_succ_apply', Function.iterate_succ_apply', Function.iterate_succ_apply',
      Function.iterate_succ_apply']
    simp only [Binary32.calculateAngles, a, b, c, d, e, f, g]
    exact ⟨trivial, trivial, trivial, trivial, trivial, trivial, trivial⟩

/-- C2 as written fails: with both roll angles at the binary32 value
`8826933 / 2 ^ 17`, the rounded blend publishes a roll one unit in the last
place lower, below the minimum of the two angles; the same for pitch. -/
theorem complementaryFilterFIR_rounds_below_min :
    Binary32.nearest tightState.gyroAngleX = tightState.gyroAngleX ∧
    tightState.accAngleX = tightState.gyroAngleX ∧
    (Binary32.complementaryFilterFIR tightState).roll = 8826933 / 131072 - 1 / 131072 ∧
    (Binary32.complementaryFilterFIR tightState).roll <
      min tightState.gyroAngleX tightState.accAngleX ∧
    (Binary32.complementaryFilterFIR tightState).pitch <
      min tightState.gyroAngleY tightState.accAngleY := by
  have hr : (Binary32.complementaryFilterFIR tightState).roll =
      8826933 / 131072 - 1 / 131072 := Binary32.blend_tight
  have hp : (Binary32.complementaryFilterFIR tightState).pitch =
      8826933 / 131072 - 1 / 131072 := Binary32.blend_tight
  have gx : tightState.gyroAngleX = 8826933 / 131072 := rfl
  have ax : tightState.accAngleX = 8826933 / 131072 := rfl
  have gy : tightState.gyroAngleY = 8826933 / 131072 := rfl
  have ay : tightState.accAngleY = 8826933 / 131072 := rfl
  refine ⟨by decide!, rfl, hr, ?_, ?_⟩
  · rw [hr, gx, ax, min_self]
    norm_num
  · rw [hp, gy, ay, min_self]
    norm_num

/-- C2, amended: for angles of magnitude at most `2 ^ 127` (finite, so that no
operation overflows), the published roll lies between `gyroAngleX` and
`accAngleX` up to the rounding allowance `blendTol`, three roundings of
relative size `2 ^ (-24)` plus `2 ^ (-148)`, and likewise pitch between
`gyroAngleY` and `accAngleY`. -/
theorem complementaryFilterFIR_convex_rounded (s : MPU6050)
    (hgx : |s.gyroAngleX| ≤ 2 ^ 127) (hax : |s.accAngleX| ≤ 2 ^ 127)
    (hgy : |s.gyroAngleY| ≤ 2 ^ 127) (hay : |s.accAngleY| ≤ 2 ^ 127) :
    min s.gyroAngleX s.accAngleX - Binary32.blendTol s.gyroAngleX s.accAngleX ≤
      (Binary32.complementaryFilterFIR s).roll ∧
    (Binary32.complementaryFilterFIR s).roll ≤
      max s.gyroAngleX s.accAngleX + Binary32.blendTol s.gyroAngleX s.accAngleX ∧
    min s.gyroAngleY s.accAngleY - Binary32.blendTol s.gyroAngleY s.accAngleY ≤
      (Binary32.complementaryFilterFIR s).pitch ∧
    (Binary32.complementaryFilterFIR s).pitch ≤
      max s.gyroAngleY s.accAngleY + Binary32.blendTol s.gyroAngleY s.accAngleY := by
  have _hgx := hgx
  have _hax := hax
  have _hgy := hgy
  have _hay := hay
  obtain ⟨r1, r2⟩ := Binary32.blend_err s.gyroAngleX s.accAngleX
  obtain ⟨p1, p2⟩ := Binary32.blend_err s.gyroAngleY s.accAngleY
  exact ⟨r1, r2, p1, p2⟩

/-- C2, amended, at the angles of the counterexample: the roll published there
is within the allowance of the two equal angles. -/
theorem complementaryFilterFIR_convex_rounded_witness :
    min tightState.gyroAngleX tightState.accAngleX -
        Binary32.blendTol tightState.gyroAngleX tightState.accAngleX ≤
      (Binary32.complementaryFilterFIR tightState).roll ∧
    (Binary32.complementaryFilterFIR tightState).roll ≤
      max tightState.gyroAngleX tightState.accAngleX +
        Binary32.blendTol tightState.gyroAngleX tightState.accAngleX :=
  have h := complementaryFilterFIR_convex_rounded tightState (by decide!) (by decide!)
    (by decide!) (by decide!)
  ⟨h.1, h.2.1⟩

/-- C5 as written fails: from zero accumulators, 100 rounded calls with the rate
held at 1.5 deg/s and `elapsedTime` held at the binary32 value of 0.01 s leave
`6291451 / 2 ^ 22` in each accumulator, which is neither `r * dt * N` for the
values held nor 3/2. -/
theorem calculateAngles_rounding_drifts :
    steadyState.gyroAngleX = 0 ∧ steadyState.gyroAngleY = 0 ∧ steadyState.yaw = 0 ∧
    steadyState.GyroX * steadyState.elapsedTime * (100 : Nat) = 402653175 / 268435456 ∧
    (Binary32.calculateAngles^[100] steadyState).gyroAngleX = 6291451 / 4194304 ∧
    (Binary32.calculateAngles^[100] steadyState).gyroAngleX ≠
      steadyState.GyroX * steadyState.elapsedTime * (100 : Nat) ∧
    (Binary32.calculateAngles^[100] steadyState).gyroAngleY ≠
      steadyState.GyroY * steadyState.elapsedTime * (100 : Nat) ∧
    (Binary32.calculateAngles^[100] steadyState).yaw ≠
      steadyState.GyroZ * steadyState.elapsedTime * (100 : Nat) ∧
    (Binary32.calculateAngles^[100] steadyState).gyroAngleX ≠ 3 / 2 := by
  obtain ⟨a, b, c, -⟩ := calculateAngles_rounded_iterate 100 steadyState
  have hx : (Binary32.calculateAngles^[100] steadyState).gyroAngleX = 6291451 / 4194304 := by
    rw [a]
    exact Binary32.accumulate_hundred
  have hy : (Binary32.calculateAngles^[100] steadyState).gyroAngleY = 6291451 / 4194304 := by
    rw [b]
    exact Binary32.accumulate_hundred
  have hz : (Binary32.calculateAngles^[100] steadyState).yaw = 6291451 / 4194304 := by
    rw [c]
    exact Binary32.accumulate_hundred
  have hdt : steadyState.elapsedTime = 5368709 / 536870912 := Binary32.nearest_hundredth
  have gx : steadyState.GyroX = 3 / 2 := rfl
  have gy : steadyState.GyroY = 3 / 2 := rfl
  have gz : steadyState.GyroZ = 3 / 2 := rfl
  rw [hx, hy, hz, hdt, gx, gy, gz]
  refine ⟨rfl, rfl, rfl, ?_, rfl, ?_, ?_, ?_, ?_⟩ <;> norm_num

/-- C5, amended: from zero accumulators, after `N ≤ 2 ^ 22` rounded calls with
the rate held at `r` and `elapsedTime` held at `dt` (and `|r * dt| * N` at most
`2 ^ 100`, so that nothing overflows), `gyroAngleX`, `gyroAngleY` and `yaw`
each differ from `r * dt * N` by at most `sumTol (r * dt) N`, that is
`3 * N ^ 2 * |r * dt| / 2 ^ 24 + N / 2 ^ 148`. -/
theorem calculateAngles_linear_rounded (r dt : ℚ) (N : Nat) (s : MPU6050)
    (hX : s.GyroX = r) (hY : s.GyroY = r) (hZ : s.GyroZ = r) (hdt : s.elapsedTime = dt)
    (h0 : s.gyroAngleX = 0) (h1 : s.gyroAngleY = 0) (h2 : s.yaw = 0)
    (hN : N ≤ 2 ^ 22) (hrange : |r * dt| * N ≤ 2 ^ 100) :
    |(Binary32.calculateAngles^[N] s).gyroAngleX - r * dt * N| ≤ Binary32.sumTol (r * dt) N ∧
    |(Binary32.calculateAngles^[N] s).gyroAngleY - r * dt * N| ≤ Binary32.sumTol (r * dt) N ∧
    |(Binary32.calculateAngles^[N] s).yaw - r * dt * N| ≤ Binary32.sumTol (r * dt) N := by
  have _hrange := hrange
  have hN' : (N : ℚ) ≤ 2 ^ 22 := by exact_mod_cast hN
  obtain ⟨a, b, c, -⟩ := calculateAngles_rounded_iterate N s
  have key := Binary32.accumulate_err (r * dt) N hN'
  rw [a, b, c, hX, hY, hZ, hdt, h0, h1, h2]
  exact ⟨key, key, key⟩

/-- C5, amended, at the run of the counterexample: rate 1.5 deg/s, step the
binary32 value of 0.01 s, 100 calls. -/
theorem calculateAngles_linear_rounded_witness :
    |(Binary32.calculateAngles^[100] steadyState).yaw -
        3 / 2 * (5368709 / 536870912) * (100 : Nat)| ≤
      Binary32.sumTol (3 / 2 * (5368709 / 536870912)) 100 :=
  (calculateAngles_linear_rounded (3 / 2) (5368709 / 536870912) 100 steadyState rfl rfl rfl
    Binary32.nearest_hundredth rfl rfl rfl (by norm_num) (by norm_num [abs_of_pos])).2.2

end IIRFilter
